import Mathlib

/-!
Verification of the CEM-RL orchestrator (`torchy_baselines/cem_rl/cem_rl.py`).

The development shallowly embeds `CEMRL.learn` (lines 121-217) and
`CEMRL._setup_model` (lines 113-119) as pure Lean functions.  External
collaborators that the learn loop consumes through narrow interfaces — the
evolutionary optimizer's `ask`, the rollout collector `collect_rollouts`,
the numeric effect of the gradient-training iterations on the actor and
actor-target weights, and the learning-rate schedule — are supplied as an
`Oracle` of abstract functions, indexed by call counters so that every
distinct call may behave differently.  The loop records every externally
visible call it makes (parameter loads, optimizer re-creation, critic/actor
training calls, replay sampling, rollout collection, `tell`) in an event
trace, and the theorems are statements about the final state and that trace.

Floating-point scalars are abstracted: parameter vectors as `List Int`,
rewards as `Int`, and `tau` / learning-rate values as `ℚ` (the claims only
compare these values for equality with configuration constants, never
compute with them).
-/

namespace CEMRL

/-- A flattened network parameter vector (`parameters_to_vector` /
`load_from_vector` codec), scalars abstracted as integers. -/
abbrev Param := List Int

/-- Result of one `collect_rollouts` call, as unpacked on line 200 of
cem_rl.py: `episode_reward, episode_timesteps, n_episodes, obs,
continue_training = rollout`. -/
structure RolloutRes where
  episode_reward : Int
  episode_timesteps : Nat
  n_episodes : Nat
  obs : Nat
  continue_training : Bool
  deriving DecidableEq

/-- Externally visible calls made by `CEMRL.learn`, in program order. -/
inductive Event where
  /-- `self.actor.load_from_vector(p)` (lines 149 and 189). -/
  | loadActor (p : Param)
  /-- `self.actor_target.load_from_vector(p)` (line 150). -/
  | loadActorTarget (p : Param)
  /-- `self.actor.optimizer = th.optim.Adam(..., lr=lr)` (lines 151-152). -/
  | newOptimizer (lr : ℚ)
  /-- `self.train_critic(iters, tau=tau)` (lines 161 and 164). -/
  | trainCritic (iters : Nat) (tau : ℚ)
  /-- `self.train_actor(iters, tau_actor, tau_critic)` (lines 162 and 165). -/
  | trainActor (iters : Nat) (tauActor tauCritic : ℚ)
  /-- `self.replay_buffer.sample(...)` (line 176); `id` identifies the batch. -/
  | sampleBatch (id : Nat)
  /-- `self.train_critic(replay_data=...)` (line 177) on batch `id`. -/
  | trainCriticBatch (id : Nat)
  /-- `self.train_actor(replay_data=..., tau_actor, tau_critic)` (line 181). -/
  | trainActorBatch (id : Nat) (tauActor tauCritic : ℚ)
  /-- `self.collect_rollouts(...)` (lines 191-197); `p` is the parameter
  vector currently loaded in the live actor. -/
  | rolloutCall (p : Param)
  /-- `self.es.tell(self.es_params, self.fitnesses)` (line 213). -/
  | tellCall (pop : List Param) (fitnesses : List Int)
  deriving DecidableEq

/-- The external collaborators of the learn loop, as abstract functions
indexed by call counters (the `k`-th call to each collaborator may behave
arbitrarily and differently from the others). -/
structure Oracle where
  /-- Result of the `g`-th `self.es.ask(self.pop_size)` call (line 142). -/
  ask : Nat → List Param
  /-- Result of the `k`-th `collect_rollouts` call (lines 191-197). -/
  rollout : Nat → RolloutRes
  /-- Net numeric effect of one gradient-phase individual's training
  iterations: given the gradient-individual counter and the parameter
  vector loaded into actor and actor-target, returns the (actor,
  actor-target) weights after the iterations. -/
  train : Nat → Param → Param × Param
  /-- `self.lr_schedule` (line 152). -/
  lr_schedule : ℚ → ℚ

/-- Construction-time configuration of CEMRL (immutable for a run). -/
structure Config where
  total_timesteps : Nat
  pop_size : Nat
  n_grad : Nat
  update_style : String
  tau : ℚ
  policy_delay : Nat
  elitism : Bool
  sigma_init : ℚ
  damping_init : ℚ
  damping_final : ℚ
  deriving DecidableEq

/-- Mutable state threaded through `CEMRL.learn`: instance fields
(`num_timesteps`, `es_params`, `fitnesses`, `_current_progress`, the live
actor / actor-target weights) and the locals `episode_num`, `obs`,
`actor_steps`, plus call counters feeding the oracle. -/
structure LearnState where
  num_timesteps : Nat
  episode_num : Nat
  obs : Nat
  actor : Param
  actor_target : Param
  actor_steps : Nat
  fitnesses : List Int
  es_params : List Param
  current_progress : ℚ
  rolloutCount : Nat
  gradCount : Nat
  sampleCount : Nat
  deriving DecidableEq

/-- Number of per-batch training iterations in the non-original styles:
`actor_steps` under `td3_like`, else `2 * (actor_steps // n_grad)`
(lines 168-173). -/
def innerSteps (cfg : Config) (asteps : Nat) : Nat :=
  if cfg.update_style == "td3_like" then asteps else 2 * (asteps / cfg.n_grad)

/-- How many replay batches one gradient individual samples: none in the
`original` / `original_td3` styles (those pass iteration counts instead),
`innerSteps` batches otherwise. -/
def sampleAdv (cfg : Config) (asteps : Nat) : Nat :=
  if cfg.update_style == "original" || cfg.update_style == "original_td3" then 0
  else innerSteps cfg asteps

/-- The per-batch inner loop `for it in range(n)` (lines 174-181): each
iteration samples a fresh replay batch, trains the critic on it, and — on
iterations with `it % policy_delay == 0` — trains the actor on the same
batch with `tau_actor = tau_critic = tau`.  Arguments: remaining
iterations, current iteration index `it`, current sample counter. -/
def innerLoop (pd : Nat) (tau : ℚ) : Nat → Nat → Nat → List Event
  | 0, _, _ => []
  | k + 1, it, sc =>
      Event.sampleBatch sc :: Event.trainCriticBatch sc ::
        ((if it % pd == 0 then [Event.trainActorBatch sc tau tau] else []) ++
          innerLoop pd tau k (it + 1) (sc + 1))

/-- The training calls of one gradient individual, per update style
(lines 160-181): `original` → `train_critic(actor_steps // n_grad, tau)`
then `train_actor(actor_steps, tau, 0)`; `original_td3` →
`train_critic(actor_steps // n_grad, 0)` then
`train_actor(actor_steps, tau, tau)`; otherwise the per-batch inner loop. -/
def styleTrain (cfg : Config) (asteps sc : Nat) : List Event :=
  if cfg.update_style == "original" then
    [Event.trainCritic (asteps / cfg.n_grad) cfg.tau,
     Event.trainActor asteps cfg.tau 0]
  else if cfg.update_style == "original_td3" then
    [Event.trainCritic (asteps / cfg.n_grad) 0,
     Event.trainActor asteps cfg.tau cfg.tau]
  else
    innerLoop cfg.policy_delay cfg.tau (innerSteps cfg asteps) 0 sc

/-- One iteration of `for i in range(self.n_grad)` (lines 147-184): load
`es_params[i]` into actor and actor-target, create a fresh Adam optimizer
at `lr_schedule(_current_progress)`, run the style's training calls, and
write the trained actor vector back into `es_params[i]`. -/
def gradIndividual (cfg : Config) (o : Oracle) (s : LearnState) (i : Nat) :
    LearnState × List Event :=
  let p := s.es_params.getD i []
  let lr := o.lr_schedule s.current_progress
  let evs := Event.loadActor p :: Event.loadActorTarget p ::
    Event.newOptimizer lr :: styleTrain cfg s.actor_steps s.sampleCount
  let at2 := o.train s.gradCount p
  ({ s with
      actor := at2.1
      actor_target := at2.2
      gradCount := s.gradCount + 1
      sampleCount := s.sampleCount + sampleAdv cfg s.actor_steps
      es_params := s.es_params.set i at2.1 }, evs)

/-- The gradient phase, iterating `gradIndividual` for `k` individuals
starting at index `i`. -/
def gradPhaseAux (cfg : Config) (o : Oracle) :
    Nat → Nat → LearnState → LearnState × List Event
  | 0, _, s => (s, [])
  | k + 1, i, s =>
      let r1 := gradIndividual cfg o s i
      let r2 := gradPhaseAux cfg o k (i + 1) r1.1
      (r2.1, r1.2 ++ r2.2)

/-- The gradient phase of one generation (lines 147-184): individuals
`0 .. n_grad - 1`. -/
def gradPhase (cfg : Config) (o : Oracle) (s : LearnState) :
    LearnState × List Event :=
  gradPhaseAux cfg o cfg.n_grad 0 s

/-- State after one successful iteration of the evaluation loop
(lines 188-207): the member is loaded into the live actor, the rollout is
collected, and `episode_num`, `actor_steps` and the fitness are
accumulated.  Modelled from the spec: `collect_rollouts` (base class, not
under src/) advances `self.num_timesteps` by the steps it collects and
returns the aggregate statistics unpacked on line 200. -/
def evalStep (o : Oracle) (p : Param) (s : LearnState) : LearnState :=
  { s with
      actor := p
      rolloutCount := s.rolloutCount + 1
      num_timesteps := s.num_timesteps + (o.rollout s.rolloutCount).episode_timesteps
      obs := (o.rollout s.rolloutCount).obs
      episode_num := s.episode_num + (o.rollout s.rolloutCount).n_episodes
      actor_steps := s.actor_steps + (o.rollout s.rolloutCount).episode_timesteps
      fitnesses := s.fitnesses ++ [(o.rollout s.rolloutCount).episode_reward] }

/-- State after an aborting iteration: the load, the rollout (with its
`num_timesteps` advance inside `collect_rollouts`) and the unpack of `obs`
have happened (lines 189-200), but the `break` on line 203 fires before
`episode_num`, `actor_steps` and `fitnesses` are accumulated. -/
def evalAbortState (o : Oracle) (p : Param) (s : LearnState) : LearnState :=
  { s with
      actor := p
      rolloutCount := s.rolloutCount + 1
      num_timesteps := s.num_timesteps + (o.rollout s.rolloutCount).episode_timesteps
      obs := (o.rollout s.rolloutCount).obs }

/-- The evaluation phase `for params in self.es_params` (lines 188-207):
load each member into the live actor, collect a rollout, and — unless the
rollout reports `continue_training=False`, in which case the loop breaks
immediately — accumulate `episode_num`, `actor_steps` and the fitness.
Returns the final state, the events emitted, and the final
`continue_training` flag. -/
def evalLoop (o : Oracle) : List Param → LearnState → LearnState × List Event × Bool
  | [], s => (s, [], true)
  | p :: rest, s =>
      if (o.rollout s.rolloutCount).continue_training then
        let r3 := evalLoop o rest (evalStep o p s)
        (r3.1, Event.loadActor p :: Event.rolloutCall p :: r3.2.1, r3.2.2)
      else
        (evalAbortState o p s, [Event.loadActor p, Event.rolloutCall p], false)

/-- State after lines 141-142: `self.fitnesses = []` and
`self.es_params = self.es.ask(self.pop_size)`. -/
def askState (o : Oracle) (g : Nat) (s : LearnState) : LearnState :=
  { s with fitnesses := [], es_params := o.ask g }

/-- State and events after the (conditional) gradient phase of a
generation: lines 144-184 run only when `self.num_timesteps > 0`. -/
def postGradState (cfg : Config) (o : Oracle) (g : Nat) (s : LearnState) :
    LearnState × List Event :=
  if 0 < s.num_timesteps then gradPhase cfg o (askState o g s)
  else (askState o g s, [])

/-- `actor_steps = 0` (line 186), before the evaluation phase. -/
def resetSteps (s : LearnState) : LearnState := { s with actor_steps := 0 }

/-- `self._update_current_progress(self.num_timesteps, total_timesteps)`
(line 212).  Modelled from the spec: `_update_current_progress` (base
class, not under src/) sets the training-progress fraction used for
learning-rate scheduling to `1 - num_timesteps / total_timesteps`. -/
def tellState (cfg : Config) (s : LearnState) : LearnState :=
  { s with
      current_progress := 1 - (s.num_timesteps : ℚ) / (cfg.total_timesteps : ℚ) }

/-- One iteration of the `while self.num_timesteps < total_timesteps` body
(lines 139-213), for the `g`-th generation: reset `fitnesses`, ask for a
population, run the gradient phase when `num_timesteps > 0`, reset
`actor_steps`, evaluate every member, and — when no rollout aborted —
advance `_current_progress` and call `tell`.  Returns the state, the
events, and `false` when the generation was aborted. -/
def generation (cfg : Config) (o : Oracle) (g : Nat) (s : LearnState) :
    LearnState × List Event × Bool :=
  let r1 := postGradState cfg o g s
  let r3 := evalLoop o (resetSteps r1.1).es_params (resetSteps r1.1)
  if r3.2.2 then
    (tellState cfg r3.1,
     r1.2 ++ r3.2.1 ++ [Event.tellCall r3.1.es_params r3.1.fitnesses], true)
  else
    (r3.1, r1.2 ++ r3.2.1, false)

/-- The outer training loop (lines 139-213), fuel-bounded: while
`num_timesteps < total_timesteps`, run one generation; stop early when a
generation is aborted (`break` on line 210). -/
def learnLoop (cfg : Config) (o : Oracle) :
    Nat → Nat → LearnState → LearnState × List Event
  | 0, _, s => (s, [])
  | fuel + 1, g, s =>
      if s.num_timesteps < cfg.total_timesteps then
        let r := generation cfg o g s
        if r.2.2 then
          let r2 := learnLoop cfg o fuel (g + 1) r.1
          (r2.1, r.2.1 ++ r2.2)
        else
          (r.1, r.2.1)
      else (s, [])

/-- The state at entry of the learn loop (lines 132-135).  Modelled from
the spec: `_setup_learn` (base class, not under src/) resets the timestep
and episode counters for a fresh learn call and returns the initial
observation; the live actor and actor-target hold the initial weights
`p0`, and `_current_progress` starts at 1. -/
def initState (p0 : Param) : LearnState :=
  { num_timesteps := 0
    episode_num := 0
    obs := 0
    actor := p0
    actor_target := p0
    actor_steps := 0
    fitnesses := []
    es_params := []
    current_progress := 1
    rolloutCount := 0
    gradCount := 0
    sampleCount := 0 }

/-- `CEMRL.learn` from a fresh `_setup_learn` state, with initial actor
weights `p0` and at most `fuel` generations. -/
def learn (cfg : Config) (o : Oracle) (p0 : Param) (fuel : Nat) :
    LearnState × List Event :=
  learnLoop cfg o fuel 0 (initState p0)

/-- The constructor arguments of the `CEM` optimizer. -/
structure CEMInit where
  num_params : Nat
  mu_init : Param
  sigma_init : ℚ
  damping_init : ℚ
  damping_final : ℚ
  pop_size : Nat
  antithetic : Bool
  parents : Nat
  elitism : Bool
  deriving DecidableEq

/-- Embedding of `CEMRL._setup_model` (lines 113-119): the CEM optimizer is
constructed over the actor's flattened parameter vector with
`antithetic=not self.pop_size % 2` (Python truthiness: antithetic is enabled
exactly when `pop_size % 2 == 0`), `parents=self.pop_size // 2`, and
`elitism=self.elitism`.  Total: construction performs arithmetic only and
cannot raise. -/
def setup_model (cfg : Config) (params_vector : Param) : CEMInit :=
  { num_params := params_vector.length
    mu_init := params_vector
    sigma_init := cfg.sigma_init
    damping_init := cfg.damping_init
    damping_final := cfg.damping_final
    pop_size := cfg.pop_size
    antithetic := cfg.pop_size % 2 == 0
    parents := cfg.pop_size / 2
    elitism := cfg.elitism }

/-! ### Derived descriptions of the traces and accumulators -/

/-- Rewards returned by rollout calls `rc, rc+1, …, rc+n-1`, in order. -/
def rewardsFrom (o : Oracle) : Nat → Nat → List Int
  | _, 0 => []
  | rc, n + 1 => (o.rollout rc).episode_reward :: rewardsFrom o (rc + 1) n

/-- Total environment steps collected by rollout calls `rc … rc+n-1`. -/
def stepsFrom (o : Oracle) : Nat → Nat → Nat
  | _, 0 => 0
  | rc, n + 1 => (o.rollout rc).episode_timesteps + stepsFrom o (rc + 1) n

/-- Total episodes completed by rollout calls `rc … rc+n-1`. -/
def episodesFrom (o : Oracle) : Nat → Nat → Nat
  | _, 0 => 0
  | rc, n + 1 => (o.rollout rc).n_episodes + episodesFrom o (rc + 1) n

/-- Events of the evaluation phase over members `ps`: one live-actor load
followed by one rollout call, per member, in population order. -/
def evalEvents : List Param → List Event
  | [] => []
  | p :: rest => Event.loadActor p :: Event.rolloutCall p :: evalEvents rest

/-- The events of one gradient individual (lines 148-181): parameter loads
into actor and actor-target, a fresh optimizer, then the style's training
calls. -/
def gradBlock (cfg : Config) (lr : ℚ) (asteps sc : Nat) (p : Param) : List Event :=
  Event.loadActor p :: Event.loadActorTarget p :: Event.newOptimizer lr ::
    styleTrain cfg asteps sc

/-- Expected trace of the gradient phase: one `gradBlock` per individual
`i, i+1, …, i+k-1`, reading member `j` from `ps` and advancing the sample
counter by `sampleAdv` per individual. -/
def gradTraceAux (cfg : Config) (lr : ℚ) (asteps : Nat) (ps : List Param) :
    Nat → Nat → Nat → List Event
  | 0, _, _ => []
  | k + 1, i, sc =>
      gradBlock cfg lr asteps sc (ps.getD i []) ++
        gradTraceAux cfg lr asteps ps k (i + 1) (sc + sampleAdv cfg asteps)

/-- Expected population after the gradient phase: slots `i … i+k-1` are
replaced, in order, by the trained actor vector of the corresponding
gradient individual. -/
def trainedParams (o : Oracle) : Nat → Nat → Nat → List Param → List Param
  | 0, _, _, ps => ps
  | k + 1, i, gc, ps =>
      trainedParams o k (i + 1) (gc + 1) (ps.set i (o.train gc (ps.getD i [])).1)

/-! ### Event classification -/

def isRolloutEv : Event → Bool
  | Event.rolloutCall _ => true
  | _ => false

def isTellEv : Event → Bool
  | Event.tellCall _ _ => true
  | _ => false

def isNewOptEv : Event → Bool
  | Event.newOptimizer _ => true
  | _ => false

def isLoadTargetEv : Event → Bool
  | Event.loadActorTarget _ => true
  | _ => false

/-- Events that only the gradient phase can emit: actor-target loads,
optimizer creation, and every kind of training or replay-sampling call. -/
def isGradEv : Event → Bool
  | Event.loadActorTarget _ => true
  | Event.newOptimizer _ => true
  | Event.trainCritic _ _ => true
  | Event.trainActor _ _ _ => true
  | Event.sampleBatch _ => true
  | Event.trainCriticBatch _ => true
  | Event.trainActorBatch _ _ _ => true
  | _ => false

/-! ### Generation-level characterization -/

/-- Population at the start of the evaluation phase of generation `g`: the
asked population, with its first `n_grad` slots replaced by the trained
vectors when the gradient phase ran. -/
def genParams (cfg : Config) (o : Oracle) (g : Nat) (s : LearnState) : List Param :=
  if 0 < s.num_timesteps then trainedParams o cfg.n_grad 0 s.gradCount (o.ask g)
  else o.ask g

/-- Trace of the gradient phase of generation `g` (empty when skipped). -/
def genGradTrace (cfg : Config) (o : Oracle) (g : Nat) (s : LearnState) : List Event :=
  if 0 < s.num_timesteps then
    gradTraceAux cfg (o.lr_schedule s.current_progress) s.actor_steps (o.ask g)
      cfg.n_grad 0 s.sampleCount
  else []

/-! ### Witness fixtures -/

/-- A small concrete configuration for witnesses. -/
def wCfg : Config :=
  { total_timesteps := 100, pop_size := 2, n_grad := 1, update_style := "original",
    tau := 1/100, policy_delay := 2, elitism := false, sigma_init := 1,
    damping_init := 1, damping_final := 1/10 }

/-- The C6 scenario configuration: `pop_size=10`, `n_grad=5`, `elitism=True`. -/
def wCfgC6 : Config := { wCfg with pop_size := 10, n_grad := 5, elitism := true }

/-- A `td3_like` configuration. -/
def wCfgTd3 : Config := { wCfg with update_style := "td3_like" }

/-- A concrete oracle whose rollouts always continue. -/
def wOracleOk : Oracle :=
  { ask := fun _ => [[1], [2]]
    rollout := fun k =>
      { episode_reward := Int.ofNat k, episode_timesteps := 3, n_episodes := 1,
        obs := 0, continue_training := true }
    train := fun _ p => (p, p)
    lr_schedule := fun x => x }

/-- A concrete oracle asking 10-member populations. -/
def wOracleC6 : Oracle := { wOracleOk with ask := fun _ => List.replicate 10 [3] }

/-- A concrete oracle whose very first rollout aborts. -/
def wOracleAbort : Oracle :=
  { wOracleOk with
      rollout := fun k =>
        { episode_reward := Int.ofNat k, episode_timesteps := 3, n_episodes := 1,
          obs := 0, continue_training := false } }

/-- A state in mid-training (so that the gradient phase runs). -/
def wStateMid : LearnState :=
  { initState [5] with num_timesteps := 7, actor_steps := 2, sampleCount := 0 }

@[simp] theorem resetSteps_num_timesteps (s : LearnState) :
    (resetSteps s).num_timesteps = s.num_timesteps := rfl

@[simp] theorem resetSteps_episode_num (s : LearnState) :
    (resetSteps s).episode_num = s.episode_num := rfl

@[simp] theorem resetSteps_obs (s : LearnState) : (resetSteps s).obs = s.obs := rfl

@[simp] theorem resetSteps_actor (s : LearnState) :
    (resetSteps s).actor = s.actor := rfl

@[simp] theorem resetSteps_actor_target (s : LearnState) :
    (resetSteps s).actor_target = s.actor_target := rfl

@[simp] theorem resetSteps_actor_steps (s : LearnState) :
    (resetSteps s).actor_steps = 0 := rfl

@[simp] theorem resetSteps_fitnesses (s : LearnState) :
    (resetSteps s).fitnesses = s.fitnesses := rfl

@[simp] theorem resetSteps_es_params (s : LearnState) :
    (resetSteps s).es_params = s.es_params := rfl

@[simp] theorem resetSteps_current_progress (s : LearnState) :
    (resetSteps s).current_progress = s.current_progress := rfl

@[simp] theorem resetSteps_rolloutCount (s : LearnState) :
    (resetSteps s).rolloutCount = s.rolloutCount := rfl

@[simp] theorem resetSteps_gradCount (s : LearnState) :
    (resetSteps s).gradCount = s.gradCount := rfl

@[simp] theorem resetSteps_sampleCount (s : LearnState) :
    (resetSteps s).sampleCount = s.sampleCount := rfl

@[simp] theorem tellState_num_timesteps (cfg : Config) (s : LearnState) :
    (tellState cfg s).num_timesteps = s.num_timesteps := rfl

@[simp] theorem tellState_episode_num (cfg : Config) (s : LearnState) :
    (tellState cfg s).episode_num = s.episode_num := rfl

@[simp] theorem tellState_obs (cfg : Config) (s : LearnState) :
    (tellState cfg s).obs = s.obs := rfl

@[simp] theorem tellState_actor (cfg : Config) (s : LearnState) :
    (tellState cfg s).actor = s.actor := rfl

@[simp] theorem tellState_actor_target (cfg : Config) (s : LearnState) :
    (tellState cfg s).actor_target = s.actor_target := rfl

@[simp] theorem tellState_actor_steps (cfg : Config) (s : LearnState) :
    (tellState cfg s).actor_steps = s.actor_steps := rfl

@[simp] theorem tellState_fitnesses (cfg : Config) (s : LearnState) :
    (tellState cfg s).fitnesses = s.fitnesses := rfl

@[simp] theorem tellState_es_params (cfg : Config) (s : LearnState) :
    (tellState cfg s).es_params = s.es_params := rfl

@[simp] theorem tellState_rolloutCount (cfg : Config) (s : LearnState) :
    (tellState cfg s).rolloutCount = s.rolloutCount := rfl

@[simp] theorem tellState_gradCount (cfg : Config) (s : LearnState) :
    (tellState cfg s).gradCount = s.gradCount := rfl

@[simp] theorem tellState_sampleCount (cfg : Config) (s : LearnState) :
    (tellState cfg s).sampleCount = s.sampleCount := rfl

theorem rewardsFrom_length (o : Oracle) : ∀ n rc, (rewardsFrom o rc n).length = n := by
  intro n
  induction n with
  | zero => intro rc; simp [rewardsFrom]
  | succ n ih => intro rc; simp [rewardsFrom, ih]

theorem rewardsFrom_getD (o : Oracle) :
    ∀ n j rc, j < n →
      (rewardsFrom o rc n).getD j 0 = (o.rollout (rc + j)).episode_reward := by
  intro n
  induction n with
  | zero => intro j rc h; omega
  | succ n ih =>
      intro j rc h
      cases j with
      | zero => simp [rewardsFrom]
      | succ j =>
          have := ih j (rc + 1) (by omega)
          simpa [rewardsFrom, Nat.add_assoc, Nat.add_comm 1 j] using this

/-- Full characterization of the evaluation phase when no rollout aborts:
the flag stays true, the trace is `evalEvents ps`, and the fitness list,
step and episode counters accumulate the per-rollout statistics in order;
everything else (population, actor-target, progress, counters) is
untouched. -/
theorem evalLoop_complete (o : Oracle) :
    ∀ (ps : List Param) (s : LearnState),
      (∀ k, k < ps.length → (o.rollout (s.rolloutCount + k)).continue_training = true) →
      (evalLoop o ps s).2.2 = true ∧
      (evalLoop o ps s).2.1 = evalEvents ps ∧
      (evalLoop o ps s).1.fitnesses = s.fitnesses ++ rewardsFrom o s.rolloutCount ps.length ∧
      (evalLoop o ps s).1.actor_steps = s.actor_steps + stepsFrom o s.rolloutCount ps.length ∧
      (evalLoop o ps s).1.episode_num = s.episode_num + episodesFrom o s.rolloutCount ps.length ∧
      (evalLoop o ps s).1.num_timesteps = s.num_timesteps + stepsFrom o s.rolloutCount ps.length ∧
      (evalLoop o ps s).1.rolloutCount = s.rolloutCount + ps.length ∧
      (evalLoop o ps s).1.es_params = s.es_params ∧
      (evalLoop o ps s).1.actor_target = s.actor_target ∧
      (evalLoop o ps s).1.current_progress = s.current_progress ∧
      (evalLoop o ps s).1.gradCount = s.gradCount ∧
      (evalLoop o ps s).1.sampleCount = s.sampleCount := by
  intro ps
  induction ps with
  | nil =>
      intro s _
      simp [evalLoop, evalEvents, rewardsFrom, stepsFrom, episodesFrom]
  | cons p rest ih =>
      intro s h
      have h0 : (o.rollout s.rolloutCount).continue_training = true := by
        simpa using h 0 (by simp)
      have hrest : ∀ k, k < rest.length →
          (o.rollout ((evalStep o p s).rolloutCount + k)).continue_training = true := by
        intro k hk
        have e : (evalStep o p s).rolloutCount + k = s.rolloutCount + (k + 1) := by
          simp [evalStep]; omega
        rw [e]
        exact h (k + 1) (by simp; omega)
      obtain ⟨c1, c2, c3, c4, c5, c6, c7, c8, c9, c10, c11, c12⟩ :=
        ih (evalStep o p s) hrest
      simp only [evalLoop, h0, if_true]
      refine ⟨c1, ?_, ?_, ?_, ?_, ?_, ?_, ?_, ?_, ?_, ?_, ?_⟩
      · rw [c2]; simp [evalEvents]
      · rw [c3]; simp [evalStep, rewardsFrom]
      · rw [c4]; simp [evalStep, stepsFrom]; omega
      · rw [c5]; simp [evalStep, episodesFrom]; omega
      · rw [c6]; simp [evalStep, stepsFrom]; omega
      · rw [c7]; simp [evalStep]; omega
      · rw [c8]; simp [evalStep]
      · rw [c9]; simp [evalStep]
      · rw [c10]; simp [evalStep]
      · rw [c11]; simp [evalStep]
      · rw [c12]; simp [evalStep]

/-- Characterization of the evaluation phase when rollout `j` (the first
`j` succeed) reports `continue_training=False`: the loop breaks with the
aborted rollout's reward, steps and episodes *not* folded into the fitness
list, `actor_steps` or `episode_num` — while `num_timesteps` (advanced
inside `collect_rollouts` itself) does include the aborted rollout's
steps. -/
theorem evalLoop_abort (o : Oracle) :
    ∀ (j : Nat) (ps : List Param) (s : LearnState),
      j < ps.length →
      (∀ k, k < j → (o.rollout (s.rolloutCount + k)).continue_training = true) →
      (o.rollout (s.rolloutCount + j)).continue_training = false →
      (evalLoop o ps s).2.2 = false ∧
      (evalLoop o ps s).2.1 = evalEvents (ps.take (j + 1)) ∧
      (evalLoop o ps s).1.fitnesses = s.fitnesses ++ rewardsFrom o s.rolloutCount j ∧
      (evalLoop o ps s).1.actor_steps = s.actor_steps + stepsFrom o s.rolloutCount j ∧
      (evalLoop o ps s).1.episode_num = s.episode_num + episodesFrom o s.rolloutCount j ∧
      (evalLoop o ps s).1.num_timesteps = s.num_timesteps + stepsFrom o s.rolloutCount (j + 1) ∧
      (evalLoop o ps s).1.rolloutCount = s.rolloutCount + (j + 1) ∧
      (evalLoop o ps s).1.es_params = s.es_params ∧
      (evalLoop o ps s).1.actor_target = s.actor_target ∧
      (evalLoop o ps s).1.current_progress = s.current_progress ∧
      (evalLoop o ps s).1.gradCount = s.gradCount ∧
      (evalLoop o ps s).1.sampleCount = s.sampleCount := by
  intro j
  induction j with
  | zero =>
      intro ps s hj _ habort
      match ps, hj with
      | p :: rest, _ =>
          have h0 : (o.rollout s.rolloutCount).continue_training = false := by
            simpa using habort
          simp [evalLoop, h0, evalAbortState, evalEvents, rewardsFrom, stepsFrom,
            episodesFrom]
  | succ j ih =>
      intro ps s hj hpre habort
      match ps, hj with
      | p :: rest, hj =>
          have h0 : (o.rollout s.rolloutCount).continue_training = true := by
            simpa using hpre 0 (by omega)
          have hpre2 : ∀ k, k < j →
              (o.rollout ((evalStep o p s).rolloutCount + k)).continue_training = true := by
            intro k hk
            have e : (evalStep o p s).rolloutCount + k = s.rolloutCount + (k + 1) := by
              simp [evalStep]; omega
            rw [e]; exact hpre (k + 1) (by omega)
          have habort2 :
              (o.rollout ((evalStep o p s).rolloutCount + j)).continue_training = false := by
            have e : (evalStep o p s).rolloutCount + j = s.rolloutCount + (j + 1) := by
              simp [evalStep]; omega
            rw [e]; exact habort
          obtain ⟨c1, c2, c3, c4, c5, c6, c7, c8, c9, c10, c11, c12⟩ :=
            ih rest (evalStep o p s) (by simpa using hj) hpre2 habort2
          simp only [evalLoop, h0, if_true]
          refine ⟨c1, ?_, ?_, ?_, ?_, ?_, ?_, ?_, ?_, ?_, ?_, ?_⟩
          · rw [c2]; simp [evalEvents]
          · rw [c3]; simp [evalStep, rewardsFrom]
          · rw [c4]; simp [evalStep, stepsFrom]; omega
          · rw [c5]; simp [evalStep, episodesFrom]; omega
          · rw [c6]; simp [evalStep, stepsFrom]; omega
          · rw [c7]; simp [evalStep]; omega
          · rw [c8]; simp [evalStep]
          · rw [c9]; simp [evalStep]
          · rw [c10]; simp [evalStep]
          · rw [c11]; simp [evalStep]
          · rw [c12]; simp [evalStep]

/-- Frame facts about the evaluation phase that hold unconditionally (both
on completed and on aborted runs): the actor-target weights and the
population are never touched, and the trace consists exactly of
load-live-actor / rollout-call pairs for a prefix of the population. -/
theorem evalLoop_frame (o : Oracle) :
    ∀ (ps : List Param) (s : LearnState),
      (evalLoop o ps s).1.actor_target = s.actor_target ∧
      (evalLoop o ps s).1.es_params = s.es_params ∧
      ∃ k, k ≤ ps.length ∧ (evalLoop o ps s).2.1 = evalEvents (ps.take k) := by
  intro ps
  induction ps with
  | nil =>
      intro s
      exact ⟨rfl, rfl, 0, by simp, by simp [evalLoop, evalEvents]⟩
  | cons p rest ih =>
      intro s
      by_cases h0 : (o.rollout s.rolloutCount).continue_training = true
      · obtain ⟨h1, h2, k, hk, htr⟩ := ih (evalStep o p s)
        refine ⟨?_, ?_, k + 1, by simp; omega, ?_⟩
        · simp only [evalLoop, h0, if_true]
          rw [h1]; simp [evalStep]
        · simp only [evalLoop, h0, if_true]
          rw [h2]; simp [evalStep]
        · simp only [evalLoop, h0, if_true]
          rw [htr]; simp [evalEvents]
      · have h0f : (o.rollout s.rolloutCount).continue_training = false := by
          simpa using h0
        exact ⟨by simp [evalLoop, h0f, evalAbortState],
          by simp [evalLoop, h0f, evalAbortState], 1,
          by simp, by simp [evalLoop, h0f, evalEvents]⟩

theorem getD_set_ne {α : Type} (a d : α) :
    ∀ (l : List α) (i j : Nat), i ≠ j → (l.set i a).getD j d = l.getD j d := by
  intro l
  induction l with
  | nil => intro i j _; simp
  | cons x xs ih =>
      intro i j hne
      cases i with
      | zero =>
          cases j with
          | zero => omega
          | succ j => simp [List.getD_cons_succ]
      | succ i =>
          cases j with
          | zero => simp [List.getD_cons_zero]
          | succ j =>
              simp only [List.set_cons_succ, List.getD_cons_succ]
              exact ih i j (by omega)

theorem getD_set_self {α : Type} (a d : α) :
    ∀ (l : List α) (i : Nat), i < l.length → (l.set i a).getD i d = a := by
  intro l
  induction l with
  | nil => intro i h; simp at h
  | cons x xs ih =>
      intro i h
      cases i with
      | zero => simp
      | succ i =>
          simp only [List.set_cons_succ, List.getD_cons_succ]
          exact ih i (by simpa using h)

theorem trainedParams_length (o : Oracle) :
    ∀ (k i gc : Nat) (ps : List Param), (trainedParams o k i gc ps).length = ps.length := by
  intro k
  induction k with
  | zero => intro i gc ps; simp [trainedParams]
  | succ k ih => intro i gc ps; simp [trainedParams, ih]

theorem trainedParams_getD_lt (o : Oracle) :
    ∀ (k i gc j : Nat) (ps : List Param), j < i →
      (trainedParams o k i gc ps).getD j [] = ps.getD j [] := by
  intro k
  induction k with
  | zero => intro i gc j ps _; simp [trainedParams]
  | succ k ih =>
      intro i gc j ps hj
      rw [trainedParams, ih (i + 1) (gc + 1) j _ (by omega),
        getD_set_ne _ _ _ _ _ (by omega)]

theorem trainedParams_getD (o : Oracle) :
    ∀ (k j i gc : Nat) (ps : List Param), j < k → i + j < ps.length →
      (trainedParams o k i gc ps).getD (i + j) [] =
        (o.train (gc + j) (ps.getD (i + j) [])).1 := by
  intro k
  induction k with
  | zero => intro j i gc ps hj _; omega
  | succ k ih =>
      intro j i gc ps hj hlen
      cases j with
      | zero =>
          rw [trainedParams]
          have h1 : i < i + 1 := by omega
          rw [trainedParams_getD_lt o k (i + 1) (gc + 1) _ _ (by omega)]
          simpa using getD_set_self (o.train gc (ps.getD i [])).1 [] ps i (by omega)
      | succ j =>
          rw [trainedParams]
          have e : i + (j + 1) = (i + 1) + j := by omega
          rw [e, ih j (i + 1) (gc + 1) _ (by omega) (by simp; omega),
            getD_set_ne _ _ _ _ _ (by omega)]
          have e2 : gc + 1 + j = gc + (j + 1) := by omega
          rw [e2]

theorem gradTraceAux_congr (cfg : Config) (lr : ℚ) (asteps : Nat) :
    ∀ (k i sc : Nat) (ps1 ps2 : List Param),
      (∀ j, i ≤ j → ps1.getD j [] = ps2.getD j []) →
      gradTraceAux cfg lr asteps ps1 k i sc = gradTraceAux cfg lr asteps ps2 k i sc := by
  intro k
  induction k with
  | zero => intro i sc ps1 ps2 _; simp [gradTraceAux]
  | succ k ih =>
      intro i sc ps1 ps2 h
      rw [gradTraceAux, gradTraceAux, h i (by omega),
        ih (i + 1) (sc + sampleAdv cfg asteps) ps1 ps2 (fun j hj => h j (by omega))]

/-- Full characterization of the gradient phase: its trace is
`gradTraceAux`, the population becomes `trainedParams`, and all the
evaluation-phase state (fitnesses, counters, progress, `actor_steps`) is
untouched. -/
theorem gradPhaseAux_spec (cfg : Config) (o : Oracle) :
    ∀ (k i : Nat) (s : LearnState),
      (gradPhaseAux cfg o k i s).2 =
        gradTraceAux cfg (o.lr_schedule s.current_progress) s.actor_steps
          s.es_params k i s.sampleCount ∧
      (gradPhaseAux cfg o k i s).1.es_params = trainedParams o k i s.gradCount s.es_params ∧
      (gradPhaseAux cfg o k i s).1.actor_steps = s.actor_steps ∧
      (gradPhaseAux cfg o k i s).1.fitnesses = s.fitnesses ∧
      (gradPhaseAux cfg o k i s).1.rolloutCount = s.rolloutCount ∧
      (gradPhaseAux cfg o k i s).1.num_timesteps = s.num_timesteps ∧
      (gradPhaseAux cfg o k i s).1.episode_num = s.episode_num ∧
      (gradPhaseAux cfg o k i s).1.current_progress = s.current_progress ∧
      (gradPhaseAux cfg o k i s).1.gradCount = s.gradCount + k ∧
      (gradPhaseAux cfg o k i s).1.obs = s.obs := by
  intro k
  induction k with
  | zero =>
      intro i s
      simp [gradPhaseAux, gradTraceAux, trainedParams]
  | succ k ih =>
      intro i s
      obtain ⟨c1, c2, c3, c4, c5, c6, c7, c8, c9, c10⟩ :=
        ih (i + 1) (gradIndividual cfg o s i).1
      simp only [gradPhaseAux]
      have hset : ∀ j, i + 1 ≤ j →
          ((gradIndividual cfg o s i).1.es_params).getD j [] = s.es_params.getD j [] := by
        intro j hj
        simp only [gradIndividual]
        exact getD_set_ne _ _ _ _ _ (by omega)
      refine ⟨?_, ?_, ?_, ?_, ?_, ?_, ?_, ?_, ?_, ?_⟩
      · rw [c1, gradTraceAux_congr cfg _ _ k (i + 1) _ _ s.es_params hset]
        simp [gradIndividual, gradTraceAux, gradBlock]
      · rw [c2]; simp [gradIndividual, trainedParams]
      · rw [c3]; simp [gradIndividual]
      · rw [c4]; simp [gradIndividual]
      · rw [c5]; simp [gradIndividual]
      · rw [c6]; simp [gradIndividual]
      · rw [c7]; simp [gradIndividual]
      · rw [c8]; simp [gradIndividual]
      · rw [c9]; simp [gradIndividual]; omega
      · rw [c10]; simp [gradIndividual]

theorem countP_evalEvents_zero (q : Event → Bool)
    (h : ∀ p, q (Event.loadActor p) = false ∧ q (Event.rolloutCall p) = false) :
    ∀ l, List.countP q (evalEvents l) = 0 := by
  intro l
  induction l with
  | nil => simp [evalEvents]
  | cons p rest ih =>
      simp [evalEvents, List.countP_cons, ih, (h p).1, (h p).2]

theorem countP_rollout_evalEvents :
    ∀ l, List.countP isRolloutEv (evalEvents l) = l.length := by
  intro l
  induction l with
  | nil => simp [evalEvents]
  | cons p rest ih =>
      simp [evalEvents, List.countP_cons, ih, isRolloutEv]

theorem filter_rollout_evalEvents :
    ∀ l, List.filter isRolloutEv (evalEvents l) = l.map Event.rolloutCall := by
  intro l
  induction l with
  | nil => simp [evalEvents]
  | cons p rest ih => simp [evalEvents, ih, isRolloutEv]

theorem countP_innerLoop_zero (q : Event → Bool) (pd : Nat) (tau : ℚ)
    (h3 : ∀ id, q (Event.sampleBatch id) = false)
    (h4 : ∀ id, q (Event.trainCriticBatch id) = false)
    (h5 : ∀ id a b, q (Event.trainActorBatch id a b) = false) :
    ∀ (k it sc : Nat), List.countP q (innerLoop pd tau k it sc) = 0 := by
  intro k
  induction k with
  | zero => intro it sc; simp [innerLoop]
  | succ k ih =>
      intro it sc
      cases hit : it % pd == 0 <;>
        simp [innerLoop, hit, List.countP_cons, List.countP_append, h3, h4, h5, ih]

theorem countP_styleTrain_zero (q : Event → Bool)
    (h1 : ∀ n t, q (Event.trainCritic n t) = false)
    (h2 : ∀ n a b, q (Event.trainActor n a b) = false)
    (h3 : ∀ id, q (Event.sampleBatch id) = false)
    (h4 : ∀ id, q (Event.trainCriticBatch id) = false)
    (h5 : ∀ id a b, q (Event.trainActorBatch id a b) = false)
    (cfg : Config) (a sc : Nat) : List.countP q (styleTrain cfg a sc) = 0 := by
  unfold styleTrain
  split
  · simp [List.countP_cons, h1, h2]
  · split
    · simp [List.countP_cons, h1, h2]
    · exact countP_innerLoop_zero q cfg.policy_delay cfg.tau h3 h4 h5 _ 0 sc

theorem countP_newOpt_gradTraceAux (cfg : Config) (lr : ℚ) (asteps : Nat)
    (ps : List Param) :
    ∀ (k i sc : Nat),
      List.countP isNewOptEv (gradTraceAux cfg lr asteps ps k i sc) = k := by
  intro k
  induction k with
  | zero => intro i sc; simp [gradTraceAux]
  | succ k ih =>
      intro i sc
      have hst := countP_styleTrain_zero isNewOptEv (fun _ _ => rfl)
        (fun _ _ _ => rfl) (fun _ => rfl) (fun _ => rfl) (fun _ _ _ => rfl)
        cfg asteps sc
      simp [gradTraceAux, gradBlock, List.countP_append, List.countP_cons,
        isNewOptEv, hst, ih]

theorem countP_loadTarget_gradTraceAux (cfg : Config) (lr : ℚ) (asteps : Nat)
    (ps : List Param) :
    ∀ (k i sc : Nat),
      List.countP isLoadTargetEv (gradTraceAux cfg lr asteps ps k i sc) = k := by
  intro k
  induction k with
  | zero => intro i sc; simp [gradTraceAux]
  | succ k ih =>
      intro i sc
      have hst := countP_styleTrain_zero isLoadTargetEv (fun _ _ => rfl)
        (fun _ _ _ => rfl) (fun _ => rfl) (fun _ => rfl) (fun _ _ _ => rfl)
        cfg asteps sc
      simp [gradTraceAux, gradBlock, List.countP_append, List.countP_cons,
        isLoadTargetEv, hst, ih]

theorem countP_gradTraceAux_zero (q : Event → Bool)
    (h0 : ∀ p, q (Event.loadActor p) = false)
    (ht : ∀ p, q (Event.loadActorTarget p) = false)
    (ho : ∀ lr, q (Event.newOptimizer lr) = false)
    (h1 : ∀ n t, q (Event.trainCritic n t) = false)
    (h2 : ∀ n a b, q (Event.trainActor n a b) = false)
    (h3 : ∀ id, q (Event.sampleBatch id) = false)
    (h4 : ∀ id, q (Event.trainCriticBatch id) = false)
    (h5 : ∀ id a b, q (Event.trainActorBatch id a b) = false)
    (cfg : Config) (lr : ℚ) (asteps : Nat) (ps : List Param) :
    ∀ (k i sc : Nat), List.countP q (gradTraceAux cfg lr asteps ps k i sc) = 0 := by
  intro k
  induction k with
  | zero => intro i sc; simp [gradTraceAux]
  | succ k ih =>
      intro i sc
      have hst := countP_styleTrain_zero q h1 h2 h3 h4 h5 cfg asteps sc
      simp [gradTraceAux, gradBlock, List.countP_append, List.countP_cons,
        h0, ht, ho, hst, ih]

theorem genParams_length (cfg : Config) (o : Oracle) (g : Nat) (s : LearnState) :
    (genParams cfg o g s).length = (o.ask g).length := by
  unfold genParams
  split
  · exact trainedParams_length o cfg.n_grad 0 s.gradCount (o.ask g)
  · rfl

theorem postGradState_spec (cfg : Config) (o : Oracle) (g : Nat) (s : LearnState) :
    (postGradState cfg o g s).2 = genGradTrace cfg o g s ∧
    (postGradState cfg o g s).1.es_params = genParams cfg o g s ∧
    (postGradState cfg o g s).1.actor_steps = s.actor_steps ∧
    (postGradState cfg o g s).1.fitnesses = [] ∧
    (postGradState cfg o g s).1.rolloutCount = s.rolloutCount ∧
    (postGradState cfg o g s).1.num_timesteps = s.num_timesteps ∧
    (postGradState cfg o g s).1.episode_num = s.episode_num ∧
    (postGradState cfg o g s).1.current_progress = s.current_progress := by
  by_cases hnt : 0 < s.num_timesteps
  · obtain ⟨g1, g2, g3, g4, g5, g6, g7, g8, g9, g10⟩ :=
      gradPhaseAux_spec cfg o cfg.n_grad 0 (askState o g s)
    refine ⟨?_, ?_, ?_, ?_, ?_, ?_, ?_, ?_⟩ <;>
      simp_all [postGradState, gradPhase, genGradTrace, genParams, hnt, askState]
  · refine ⟨?_, ?_, ?_, ?_, ?_, ?_, ?_, ?_⟩ <;>
      simp [postGradState, genGradTrace, genParams, hnt, askState]

/-- Full characterization of a generation in which every rollout reports
`continue_training=True`: `tell` is called exactly once, last, with the
(possibly gradient-trained) population and the index-aligned rewards of
its members' rollouts; the accumulators take the described values. -/
theorem generation_complete (cfg : Config) (o : Oracle) (g : Nat) (s : LearnState)
    (hroll : ∀ k, k < (o.ask g).length →
      (o.rollout (s.rolloutCount + k)).continue_training = true) :
    (generation cfg o g s).2.2 = true ∧
    (generation cfg o g s).2.1 =
      genGradTrace cfg o g s ++ evalEvents (genParams cfg o g s) ++
        [Event.tellCall (genParams cfg o g s)
          (rewardsFrom o s.rolloutCount (o.ask g).length)] ∧
    (generation cfg o g s).1.es_params = genParams cfg o g s ∧
    (generation cfg o g s).1.fitnesses = rewardsFrom o s.rolloutCount (o.ask g).length ∧
    (generation cfg o g s).1.actor_steps = stepsFrom o s.rolloutCount (o.ask g).length ∧
    (generation cfg o g s).1.num_timesteps =
      s.num_timesteps + stepsFrom o s.rolloutCount (o.ask g).length ∧
    (generation cfg o g s).1.episode_num =
      s.episode_num + episodesFrom o s.rolloutCount (o.ask g).length ∧
    (generation cfg o g s).1.rolloutCount = s.rolloutCount + (o.ask g).length := by
  obtain ⟨p1, p2, p3, p4, p5, p6, p7, p8⟩ := postGradState_spec cfg o g s
  have hps : (resetSteps (postGradState cfg o g s).1).es_params =
      genParams cfg o g s := by rw [resetSteps_es_params, p2]
  have hrc : (resetSteps (postGradState cfg o g s).1).rolloutCount =
      s.rolloutCount := by rw [resetSteps_rolloutCount, p5]
  have hlen : (resetSteps (postGradState cfg o g s).1).es_params.length =
      (o.ask g).length := by rw [hps, genParams_length]
  obtain ⟨e1, e2, e3, e4, e5, e6, e7, e8, e9, e10, e11, e12⟩ :=
    evalLoop_complete o (resetSteps (postGradState cfg o g s).1).es_params
      (resetSteps (postGradState cfg o g s).1)
      (by intro k hk; rw [hrc]; exact hroll k (by rw [← hlen]; exact hk))
  simp only [hlen, hrc, resetSteps_fitnesses, resetSteps_actor_steps,
    resetSteps_num_timesteps, resetSteps_episode_num, resetSteps_es_params,
    resetSteps_actor_target, resetSteps_current_progress, resetSteps_gradCount,
    resetSteps_sampleCount, p2, p4, p5, p6, p7] at e1 e2 e3 e4 e5 e6 e7 e8
  simp only [genParams_length] at e2 e3 e4 e5 e6 e7 e8
  simp only [generation, hps]
  simp only [e1, eq_self_iff_true, if_true]
  refine ⟨trivial, ?_, ?_, ?_, ?_, ?_, ?_, ?_⟩
  · rw [p1, e2, e3, e8]; simp
  · simp [e8]
  · simp [e3]
  · simp [e4]
  · simp [e6]
  · simp [e5]
  · simp [e7]

/-- Characterization of an aborted generation: when the first `j` rollouts
succeed and rollout `j` reports `continue_training=False`, the generation
ends with no `tell` event and without folding the aborted rollout's
reward, steps or episodes into the accumulators (its steps do reach
`num_timesteps`, which `collect_rollouts` advances itself, and the rollout
call itself did happen). -/
theorem generation_abort (cfg : Config) (o : Oracle) (g : Nat) (s : LearnState)
    (j : Nat) (hj : j < (o.ask g).length)
    (hpre : ∀ k, k < j → (o.rollout (s.rolloutCount + k)).continue_training = true)
    (habort : (o.rollout (s.rolloutCount + j)).continue_training = false) :
    (generation cfg o g s).2.2 = false ∧
    (generation cfg o g s).2.1 =
      genGradTrace cfg o g s ++ evalEvents ((genParams cfg o g s).take (j + 1)) ∧
    (generation cfg o g s).1.fitnesses = rewardsFrom o s.rolloutCount j ∧
    (generation cfg o g s).1.actor_steps = stepsFrom o s.rolloutCount j ∧
    (generation cfg o g s).1.episode_num =
      s.episode_num + episodesFrom o s.rolloutCount j ∧
    (generation cfg o g s).1.num_timesteps =
      s.num_timesteps + stepsFrom o s.rolloutCount (j + 1) ∧
    (generation cfg o g s).1.rolloutCount = s.rolloutCount + (j + 1) ∧
    (generation cfg o g s).1.es_params = genParams cfg o g s := by
  obtain ⟨p1, p2, p3, p4, p5, p6, p7, p8⟩ := postGradState_spec cfg o g s
  have hps : (resetSteps (postGradState cfg o g s).1).es_params =
      genParams cfg o g s := by rw [resetSteps_es_params, p2]
  have hrc : (resetSteps (postGradState cfg o g s).1).rolloutCount =
      s.rolloutCount := by rw [resetSteps_rolloutCount, p5]
  have hlen : (resetSteps (postGradState cfg o g s).1).es_params.length =
      (o.ask g).length := by rw [hps, genParams_length]
  obtain ⟨a1, a2, a3, a4, a5, a6, a7, a8, a9, a10, a11, a12⟩ :=
    evalLoop_abort o j (resetSteps (postGradState cfg o g s).1).es_params
      (resetSteps (postGradState cfg o g s).1)
      (by rw [hlen]; exact hj)
      (by intro k hk; rw [hrc]; exact hpre k hk)
      (by rw [hrc]; exact habort)
  simp only [hrc, resetSteps_fitnesses, resetSteps_actor_steps,
    resetSteps_num_timesteps, resetSteps_episode_num, resetSteps_es_params,
    p2, p4, p5, p6, p7] at a1 a2 a3 a4 a5 a6 a7 a8
  simp only [generation, hps]
  simp only [a1, Bool.false_eq_true, if_false]
  refine ⟨trivial, ?_, ?_, ?_, ?_, ?_, ?_, ?_⟩
  · rw [p1, a2]
  · simp [a3]
  · simp [a4]
  · simp [a5]
  · simp [a6]
  · simp [a7]
  · simp [a8]

theorem tell_not_mem_evalEvents (pop : List Param) (fit : List Int) :
    ∀ l, Event.tellCall pop fit ∉ evalEvents l := by
  intro l
  induction l with
  | nil => simp [evalEvents]
  | cons p rest ih => simp [evalEvents, ih]

theorem tell_not_mem_gradTraceAux (cfg : Config) (lr : ℚ) (asteps : Nat)
    (ps : List Param) (pop : List Param) (fit : List Int) (k i sc : Nat) :
    Event.tellCall pop fit ∉ gradTraceAux cfg lr asteps ps k i sc := by
  intro hmem
  have h0 := countP_gradTraceAux_zero isTellEv (fun _ => rfl) (fun _ => rfl)
    (fun _ => rfl) (fun _ _ => rfl) (fun _ _ _ => rfl) (fun _ => rfl)
    (fun _ => rfl) (fun _ _ _ => rfl) cfg lr asteps ps k i sc
  rw [List.countP_eq_zero] at h0
  have h1 := h0 _ hmem
  simp [isTellEv] at h1

theorem tell_not_mem_genGradTrace (cfg : Config) (o : Oracle) (g : Nat)
    (s : LearnState) (pop : List Param) (fit : List Int) :
    Event.tellCall pop fit ∉ genGradTrace cfg o g s := by
  unfold genGradTrace
  split
  · exact tell_not_mem_gradTraceAux cfg _ _ _ pop fit _ _ _
  · simp

/-- A generation whose flag came back `true` had every rollout report
`continue_training=True`. -/
theorem generation_true_rollouts (cfg : Config) (o : Oracle) (g : Nat)
    (s : LearnState) (hflag : (generation cfg o g s).2.2 = true) :
    ∀ k, k < (o.ask g).length →
      (o.rollout (s.rolloutCount + k)).continue_training = true := by
  by_contra hex
  push_neg at hex
  obtain ⟨k0, hk0, hfalse⟩ := hex
  have hfalse2 : (o.rollout (s.rolloutCount + k0)).continue_training = false := by
    cases h : (o.rollout (s.rolloutCount + k0)).continue_training
    · rfl
    · exact absurd h hfalse
  have hP : ∃ n, n < (o.ask g).length ∧
      (o.rollout (s.rolloutCount + n)).continue_training = false :=
    ⟨k0, hk0, hfalse2⟩
  have hjspec := Nat.find_spec hP
  have hpre : ∀ k, k < Nat.find hP →
      (o.rollout (s.rolloutCount + k)).continue_training = true := by
    intro k hk
    have hnot := Nat.find_min hP hk
    have hklen : k < (o.ask g).length := lt_of_lt_of_le hk
      (le_trans (Nat.find_min' hP ⟨hk0, hfalse2⟩) (le_of_lt hk0))
    cases h : (o.rollout (s.rolloutCount + k)).continue_training
    · exact absurd ⟨hklen, h⟩ hnot
    · rfl
  have := (generation_abort cfg o g s (Nat.find hP) hjspec.1 hpre hjspec.2).1
  rw [hflag] at this
  cases this

/-- A `tell` event can only appear in a completed generation's trace. -/
theorem generation_flag_of_tell (cfg : Config) (o : Oracle) (g : Nat)
    (s : LearnState) (pop : List Param) (fit : List Int)
    (hmem : Event.tellCall pop fit ∈ (generation cfg o g s).2.1) :
    (generation cfg o g s).2.2 = true := by
  cases hfl : (generation cfg o g s).2.2
  · exfalso
    by_cases hall : ∀ k, k < (o.ask g).length →
        (o.rollout (s.rolloutCount + k)).continue_training = true
    · have := (generation_complete cfg o g s hall).1
      rw [hfl] at this
      cases this
    · push_neg at hall
      obtain ⟨k0, hk0, hfalse⟩ := hall
      have hfalse2 : (o.rollout (s.rolloutCount + k0)).continue_training = false := by
        cases h : (o.rollout (s.rolloutCount + k0)).continue_training
        · rfl
        · exact absurd h hfalse
      have hP : ∃ n, n < (o.ask g).length ∧
          (o.rollout (s.rolloutCount + n)).continue_training = false :=
        ⟨k0, hk0, hfalse2⟩
      have hjspec := Nat.find_spec hP
      have hpre : ∀ k, k < Nat.find hP →
          (o.rollout (s.rolloutCount + k)).continue_training = true := by
        intro k hk
        have hnot := Nat.find_min hP hk
        have hklen : k < (o.ask g).length := lt_of_lt_of_le hk
          (le_trans (Nat.find_min' hP ⟨hk0, hfalse2⟩) (le_of_lt hk0))
        cases h : (o.rollout (s.rolloutCount + k)).continue_training
        · exact absurd ⟨hklen, h⟩ hnot
        · rfl
      have htr := (generation_abort cfg o g s (Nat.find hP) hjspec.1 hpre hjspec.2).2.1
      rw [htr] at hmem
      rcases List.mem_append.1 hmem with h | h
      · exact tell_not_mem_genGradTrace cfg o g s pop fit h
      · exact tell_not_mem_evalEvents pop fit _ h
  · rfl

/-- The actor-target weights at the end of a generation are exactly the
ones the (conditional) gradient phase left behind: the evaluation phase
and the `tell` bookkeeping never touch them. -/
theorem generation_actor_target (cfg : Config) (o : Oracle) (g : Nat)
    (s : LearnState) :
    (generation cfg o g s).1.actor_target = (postGradState cfg o g s).1.actor_target := by
  obtain ⟨hT, hE, k, hk, htr⟩ :=
    evalLoop_frame o (resetSteps (postGradState cfg o g s).1).es_params
      (resetSteps (postGradState cfg o g s).1)
  simp only [resetSteps_es_params, resetSteps_actor_target] at hT
  cases hfl : (evalLoop o (postGradState cfg o g s).1.es_params
      (resetSteps (postGradState cfg o g s).1)).2.2 <;>
    simp [generation, hfl, hT]

/-- When a generation aborts below the timestep budget, the outer loop
returns its state immediately: the result does not depend on the remaining
fuel (the `break` on line 210 terminates the `while`). -/
theorem learnLoop_stop (cfg : Config) (o : Oracle) (fuel g : Nat) (s : LearnState)
    (hlt : s.num_timesteps < cfg.total_timesteps)
    (hfl : (generation cfg o g s).2.2 = false) :
    learnLoop cfg o (fuel + 1) g s =
      ((generation cfg o g s).1, (generation cfg o g s).2.1) := by
  simp only [learnLoop]
  rw [if_pos hlt]
  simp [hfl]

/-- Complete description of the events of the per-batch inner loop
(lines 174-181): iteration `j` (with global iteration index `it + j`)
samples batch `sc + j`, trains the critic on it, and trains the actor on
the same batch (taus both `tau`) exactly when `(it + j) % policy_delay ==
0`. -/
theorem innerLoop_mem_characterize (pd : Nat) (tau : ℚ) :
    ∀ (k it sc : Nat) (e : Event),
      e ∈ innerLoop pd tau k it sc ↔
        ∃ j, j < k ∧
          (e = Event.sampleBatch (sc + j) ∨ e = Event.trainCriticBatch (sc + j) ∨
            (e = Event.trainActorBatch (sc + j) tau tau ∧ (it + j) % pd = 0)) := by
  intro k
  induction k with
  | zero => intro it sc e; simp [innerLoop]
  | succ k ih =>
      intro it sc e
      rw [innerLoop]
      simp only [List.mem_cons, List.mem_append, ih (it + 1) (sc + 1)]
      constructor
      · rintro (rfl | rfl | h)
        · exact ⟨0, by omega, Or.inl (by simp)⟩
        · exact ⟨0, by omega, Or.inr (Or.inl (by simp))⟩
        · rcases h with h | ⟨j, hj, hcase⟩
          · by_cases hit : (it % pd == 0) = true
            · rw [if_pos hit] at h
              simp only [List.mem_singleton] at h
              subst h
              exact ⟨0, by omega, Or.inr (Or.inr ⟨by simp, by simpa using hit⟩)⟩
            · rw [if_neg hit] at h
              simp at h
          · refine ⟨j + 1, by omega, ?_⟩
            have e1 : sc + 1 + j = sc + (j + 1) := by omega
            have e2 : it + 1 + j = it + (j + 1) := by omega
            rw [e1, e2] at hcase
            exact hcase
      · rintro ⟨j, hj, hcase⟩
        cases j with
        | zero =>
            rcases hcase with rfl | rfl | ⟨rfl, hmod⟩
            · exact Or.inl (by simp)
            · exact Or.inr (Or.inl (by simp))
            · refine Or.inr (Or.inr (Or.inl ?_))
              have hit : (it % pd == 0) = true := by
                simpa using hmod
              rw [if_pos hit]
              simp
        | succ j =>
            refine Or.inr (Or.inr (Or.inr ⟨j, by omega, ?_⟩))
            have e1 : sc + 1 + j = sc + (j + 1) := by omega
            have e2 : it + 1 + j = it + (j + 1) := by omega
            rw [e1, e2]
            exact hcase

/-- Each gradient index `j < k` contributes its `gradBlock` as a
contiguous segment of the gradient-phase trace. -/
theorem gradTraceAux_decompose (cfg : Config) (lr : ℚ) (asteps : Nat)
    (ps : List Param) :
    ∀ (k j i sc : Nat), j < k →
      ∃ pre post, gradTraceAux cfg lr asteps ps k i sc =
        pre ++ gradBlock cfg lr asteps (sc + j * sampleAdv cfg asteps)
          (ps.getD (i + j) []) ++ post := by
  intro k
  induction k with
  | zero => intro j i sc h; omega
  | succ k ih =>
      intro j i sc h
      cases j with
      | zero =>
          refine ⟨[], gradTraceAux cfg lr asteps ps k (i + 1)
            (sc + sampleAdv cfg asteps), ?_⟩
          simp [gradTraceAux]
      | succ j =>
          obtain ⟨pre, post, hp⟩ := ih j (i + 1) (sc + sampleAdv cfg asteps) (by omega)
          refine ⟨gradBlock cfg lr asteps sc (ps.getD i []) ++ pre, post, ?_⟩
          rw [gradTraceAux, hp]
          have e1 : i + 1 + j = i + (j + 1) := by omega
          have e2 : sc + sampleAdv cfg asteps + j * sampleAdv cfg asteps =
              sc + (j + 1) * sampleAdv cfg asteps := by ring
          rw [e1, e2]
          simp [List.append_assoc]

/-- The generation trace always starts with the gradient-phase trace. -/
theorem generation_trace_split (cfg : Config) (o : Oracle) (g : Nat)
    (s : LearnState) :
    ∃ rest, (generation cfg o g s).2.1 = genGradTrace cfg o g s ++ rest := by
  obtain ⟨p1, _, _, _, _, _, _, _⟩ := postGradState_spec cfg o g s
  simp only [generation]
  split
  · exact ⟨_, by rw [List.append_assoc, p1]⟩
  · exact ⟨_, by rw [p1]⟩

/-- When the gradient phase runs, the generation trace contains — for each
gradient index `i < n_grad` — the load/load-target/new-optimizer/training
block of individual `i` as a contiguous segment. -/
theorem generation_gradBlock (cfg : Config) (o : Oracle) (g : Nat)
    (s : LearnState) (hnt : 0 < s.num_timesteps) (i : Nat) (hi : i < cfg.n_grad) :
    ∃ pre post, (generation cfg o g s).2.1 =
      pre ++ gradBlock cfg (o.lr_schedule s.current_progress) s.actor_steps
        (s.sampleCount + i * sampleAdv cfg s.actor_steps) ((o.ask g).getD i [])
        ++ post := by
  obtain ⟨rest, hrest⟩ := generation_trace_split cfg o g s
  obtain ⟨pre, post, hdec⟩ := gradTraceAux_decompose cfg
    (o.lr_schedule s.current_progress) s.actor_steps (o.ask g) cfg.n_grad i 0
    s.sampleCount hi
  rw [hrest]
  have hgt : genGradTrace cfg o g s =
      gradTraceAux cfg (o.lr_schedule s.current_progress) s.actor_steps (o.ask g)
        cfg.n_grad 0 s.sampleCount := by
    unfold genGradTrace
    rw [if_pos hnt]
  rw [hgt, hdec]
  refine ⟨pre, post ++ rest, ?_⟩
  simp [List.append_assoc]

/-- Every generation trace is either the completed shape (ending in the
`tell` call) or an aborted prefix shape. -/
theorem generation_trace_cases (cfg : Config) (o : Oracle) (g : Nat) (s : LearnState) :
    (generation cfg o g s).2.1 =
      genGradTrace cfg o g s ++ evalEvents (genParams cfg o g s) ++
        [Event.tellCall (genParams cfg o g s)
          (rewardsFrom o s.rolloutCount (o.ask g).length)] ∨
    ∃ j, j < (o.ask g).length ∧ (generation cfg o g s).2.1 =
      genGradTrace cfg o g s ++ evalEvents ((genParams cfg o g s).take (j + 1)) := by
  by_cases hall : ∀ k, k < (o.ask g).length →
      (o.rollout (s.rolloutCount + k)).continue_training = true
  · exact Or.inl (generation_complete cfg o g s hall).2.1
  · push_neg at hall
    obtain ⟨k0, hk0, hfalse⟩ := hall
    have hfalse2 : (o.rollout (s.rolloutCount + k0)).continue_training = false := by
      cases h : (o.rollout (s.rolloutCount + k0)).continue_training
      · rfl
      · exact absurd h hfalse
    have hP : ∃ n, n < (o.ask g).length ∧
        (o.rollout (s.rolloutCount + n)).continue_training = false :=
      ⟨k0, hk0, hfalse2⟩
    have hjspec := Nat.find_spec hP
    have hpre : ∀ k, k < Nat.find hP →
        (o.rollout (s.rolloutCount + k)).continue_training = true := by
      intro k hk
      have hnot := Nat.find_min hP hk
      have hklen : k < (o.ask g).length := lt_of_lt_of_le hk
        (le_trans (Nat.find_min' hP ⟨hk0, hfalse2⟩) (le_of_lt hk0))
      cases h : (o.rollout (s.rolloutCount + k)).continue_training
      · exact absurd ⟨hklen, h⟩ hnot
      · rfl
    exact Or.inr ⟨Nat.find hP, hjspec.1,
      (generation_abort cfg o g s (Nat.find hP) hjspec.1 hpre hjspec.2).2.1⟩

/-- Generic counting principle: an event class that the evaluation phase
and the `tell` call never produce is counted entirely by the
gradient-phase trace. -/
theorem generation_countP (q : Event → Bool)
    (hload : ∀ p, q (Event.loadActor p) = false)
    (hroll : ∀ p, q (Event.rolloutCall p) = false)
    (htell : ∀ pop fit, q (Event.tellCall pop fit) = false)
    (cfg : Config) (o : Oracle) (g : Nat) (s : LearnState) :
    List.countP q (generation cfg o g s).2.1 =
      List.countP q (genGradTrace cfg o g s) := by
  have hev := countP_evalEvents_zero q (fun p => ⟨hload p, hroll p⟩)
  rcases generation_trace_cases cfg o g s with h | ⟨j, hj, h⟩ <;>
    rw [h] <;>
    simp [List.countP_append, List.countP_cons, hev, htell]

theorem countP_tell_genGradTrace (cfg : Config) (o : Oracle) (g : Nat)
    (s : LearnState) : List.countP isTellEv (genGradTrace cfg o g s) = 0 := by
  unfold genGradTrace
  split
  · exact countP_gradTraceAux_zero isTellEv (fun _ => rfl) (fun _ => rfl)
      (fun _ => rfl) (fun _ _ => rfl) (fun _ _ _ => rfl) (fun _ => rfl)
      (fun _ => rfl) (fun _ _ _ => rfl) cfg _ _ _ _ _ _
  · rfl

theorem countP_rollout_genGradTrace (cfg : Config) (o : Oracle) (g : Nat)
    (s : LearnState) : List.countP isRolloutEv (genGradTrace cfg o g s) = 0 := by
  unfold genGradTrace
  split
  · exact countP_gradTraceAux_zero isRolloutEv (fun _ => rfl) (fun _ => rfl)
      (fun _ => rfl) (fun _ _ => rfl) (fun _ _ _ => rfl) (fun _ => rfl)
      (fun _ => rfl) (fun _ _ _ => rfl) cfg _ _ _ _ _ _
  · rfl

theorem filter_rollout_genGradTrace (cfg : Config) (o : Oracle) (g : Nat)
    (s : LearnState) : List.filter isRolloutEv (genGradTrace cfg o g s) = [] := by
  rw [List.filter_eq_nil_iff]
  intro e hmem
  have h0 := countP_rollout_genGradTrace cfg o g s
  rw [List.countP_eq_zero] at h0
  exact h0 e hmem

theorem countP_newOpt_genGradTrace (cfg : Config) (o : Oracle) (g : Nat)
    (s : LearnState) (hnt : 0 < s.num_timesteps) :
    List.countP isNewOptEv (genGradTrace cfg o g s) = cfg.n_grad := by
  unfold genGradTrace
  rw [if_pos hnt]
  exact countP_newOpt_gradTraceAux cfg _ _ _ _ _ _

theorem countP_loadTarget_genGradTrace (cfg : Config) (o : Oracle) (g : Nat)
    (s : LearnState) (hnt : 0 < s.num_timesteps) :
    List.countP isLoadTargetEv (genGradTrace cfg o g s) = cfg.n_grad := by
  unfold genGradTrace
  rw [if_pos hnt]
  exact countP_loadTarget_gradTraceAux cfg _ _ _ _ _ _

/-- The population list at the end of a generation is `genParams`, whether
or not the generation aborted: the evaluation phase never writes to
`es_params`. -/
theorem generation_es_params (cfg : Config) (o : Oracle) (g : Nat)
    (s : LearnState) :
    (generation cfg o g s).1.es_params = genParams cfg o g s := by
  obtain ⟨hT, hE, k, hk, htr⟩ :=
    evalLoop_frame o (resetSteps (postGradState cfg o g s).1).es_params
      (resetSteps (postGradState cfg o g s).1)
  obtain ⟨_, p2, _⟩ := postGradState_spec cfg o g s
  simp only [resetSteps_es_params, p2] at hE
  cases hfl : (evalLoop o (genParams cfg o g s)
      (resetSteps (postGradState cfg o g s).1)).2.2 <;>
    simp [generation, p2, hfl, hE]

theorem innerLoop_mem_sample_iff (pd : Nat) (tau : ℚ) (k it sc j : Nat) :
    Event.sampleBatch (sc + j) ∈ innerLoop pd tau k it sc ↔ j < k := by
  rw [innerLoop_mem_characterize]
  constructor
  · rintro ⟨j2, hj2, h | h | ⟨h, hmod⟩⟩
    · have : sc + j = sc + j2 := by simpa using h
      omega
    · simp at h
    · simp at h
  · intro hj
    exact ⟨j, hj, Or.inl rfl⟩

theorem innerLoop_mem_critic_iff (pd : Nat) (tau : ℚ) (k it sc j : Nat) :
    Event.trainCriticBatch (sc + j) ∈ innerLoop pd tau k it sc ↔ j < k := by
  rw [innerLoop_mem_characterize]
  constructor
  · rintro ⟨j2, hj2, h | h | ⟨h, hmod⟩⟩
    · simp at h
    · have : sc + j = sc + j2 := by simpa using h
      omega
    · simp at h
  · intro hj
    exact ⟨j, hj, Or.inr (Or.inl rfl)⟩

theorem innerLoop_mem_actor_iff (pd : Nat) (tau : ℚ) (k it sc j : Nat) (a b : ℚ) :
    Event.trainActorBatch (sc + j) a b ∈ innerLoop pd tau k it sc ↔
      (j < k ∧ (it + j) % pd = 0 ∧ a = tau ∧ b = tau) := by
  rw [innerLoop_mem_characterize]
  constructor
  · rintro ⟨j2, hj2, h | h | ⟨h, hmod⟩⟩
    · simp at h
    · simp at h
    · obtain ⟨hid, ha, hb⟩ : sc + j = sc + j2 ∧ a = tau ∧ b = tau := by
        simpa using h
      have hjj : j = j2 := by omega
      subst hjj
      exact ⟨hj2, hmod, ha, hb⟩
  · rintro ⟨hj, hmod, rfl, rfl⟩
    exact ⟨j, hj, Or.inr (Or.inr ⟨rfl, hmod⟩)⟩

/-! ### The claims -/

/-- C1: if the rollout collector reports `continue_training=false` for any
individual of a generation (the first `j` succeed, rollout `j` aborts),
then `Optimizer.tell` is not invoked for that generation and the outer
training loop terminates: `learnLoop` returns the aborted generation's
state no matter how much fuel remains. -/
theorem C1_abort_skips_tell_and_stops (cfg : Config) (o : Oracle) (g : Nat)
    (s : LearnState) (j : Nat)
    (hlt : s.num_timesteps < cfg.total_timesteps)
    (hj : j < (o.ask g).length)
    (hpre : ∀ k, k < j → (o.rollout (s.rolloutCount + k)).continue_training = true)
    (habort : (o.rollout (s.rolloutCount + j)).continue_training = false) :
    (generation cfg o g s).2.2 = false ∧
    List.countP isTellEv (generation cfg o g s).2.1 = 0 ∧
    ∀ fuel, learnLoop cfg o (fuel + 1) g s =
      ((generation cfg o g s).1, (generation cfg o g s).2.1) := by
  obtain ⟨a1, a2, _⟩ := generation_abort cfg o g s j hj hpre habort
  refine ⟨a1, ?_, fun fuel => learnLoop_stop cfg o fuel g s hlt a1⟩
  rw [a2]
  simp [List.countP_append, countP_evalEvents_zero isTellEv (fun p => ⟨rfl, rfl⟩),
    countP_tell_genGradTrace]

theorem C1_witness :
    (generation wCfg wOracleAbort 0 (initState [0])).2.2 = false ∧
    List.countP isTellEv (generation wCfg wOracleAbort 0 (initState [0])).2.1 = 0 ∧
    learnLoop wCfg wOracleAbort 4 0 (initState [0]) =
      ((generation wCfg wOracleAbort 0 (initState [0])).1,
        (generation wCfg wOracleAbort 0 (initState [0])).2.1) := by
  obtain ⟨h1, h2, h3⟩ := C1_abort_skips_tell_and_stops wCfg wOracleAbort 0
    (initState [0]) 0 (by decide) (by decide) (by intro k hk; omega) (by decide)
  exact ⟨h1, h2, h3 3⟩

/-- C2: whenever `tell` is invoked, the population and fitness lists have
equal length `pop_size` (assuming the CEM `ask` contract — `ask(k)`
returns `k` individuals, code not under src/ — as the hypothesis `hlen`),
the population passed is exactly the final `es_params`, fitness `i` is the
reward of the `i`-th rollout of the generation, and the generation's
rollout calls carried exactly the population members, in order. -/
theorem C2_tell_alignment (cfg : Config) (o : Oracle) (g : Nat) (s : LearnState)
    (hlen : (o.ask g).length = cfg.pop_size)
    (pop : List Param) (fit : List Int)
    (hmem : Event.tellCall pop fit ∈ (generation cfg o g s).2.1) :
    pop.length = cfg.pop_size ∧ fit.length = cfg.pop_size ∧
    pop = (generation cfg o g s).1.es_params ∧
    (∀ i, i < cfg.pop_size →
      fit.getD i 0 = (o.rollout (s.rolloutCount + i)).episode_reward) ∧
    List.filter isRolloutEv (generation cfg o g s).2.1 =
      pop.map Event.rolloutCall := by
  have hflag := generation_flag_of_tell cfg o g s pop fit hmem
  have hall := generation_true_rollouts cfg o g s hflag
  obtain ⟨c1, c2, c3, c4, c5, c6, c7, c8⟩ := generation_complete cfg o g s hall
  rw [c2] at hmem
  rcases List.mem_append.1 hmem with h | h
  · rcases List.mem_append.1 h with h2 | h2
    · exact absurd h2 (tell_not_mem_genGradTrace cfg o g s pop fit)
    · exact absurd h2 (tell_not_mem_evalEvents pop fit _)
  · have heq : Event.tellCall pop fit =
        Event.tellCall (genParams cfg o g s)
          (rewardsFrom o s.rolloutCount (o.ask g).length) := by
      simpa using h
    injection heq with hpop hfit
    refine ⟨?_, ?_, ?_, ?_, ?_⟩
    · rw [hpop, genParams_length, hlen]
    · rw [hfit, rewardsFrom_length, hlen]
    · rw [hpop, ← c3]
    · intro i hi
      rw [hfit]
      exact rewardsFrom_getD o (o.ask g).length i s.rolloutCount (by omega)
    · rw [c2, hpop, List.filter_append, List.filter_append,
        filter_rollout_genGradTrace, filter_rollout_evalEvents]
      simp [isRolloutEv]

theorem C2_witness :
    ([[1], [2]] : List Param).length = wCfg.pop_size ∧
    ([0, 1] : List Int).length = wCfg.pop_size ∧
    ([[1], [2]] : List Param) =
      (generation wCfg wOracleOk 0 (initState [0])).1.es_params ∧
    (([0, 1] : List Int).getD 0 0 =
      (wOracleOk.rollout ((initState [0]).rolloutCount + 0)).episode_reward) ∧
    List.filter isRolloutEv (generation wCfg wOracleOk 0 (initState [0])).2.1 =
      ([[1], [2]] : List Param).map Event.rolloutCall := by
  obtain ⟨h1, h2, h3, h4, h5⟩ := C2_tell_alignment wCfg wOracleOk 0 (initState [0])
    (by decide) [[1], [2]] [0, 1] (by decide)
  exact ⟨h1, h2, h3, h4 0 (by decide), h5⟩

/-- C3: at the start of a learn call `num_timesteps = 0`, and a generation
entered with `num_timesteps = 0` emits no gradient-phase event at all (no
training call, no optimizer creation, no actor/actor-target load of the
gradient phase); a generation entered with `num_timesteps > 0` creates
exactly `n_grad` fresh optimizers and performs exactly `n_grad`
actor-target loads — one per gradient-receiving member. -/
theorem C3_first_generation_skips_gradient (cfg : Config) (o : Oracle) (g : Nat)
    (s : LearnState) (p0 : Param) :
    (initState p0).num_timesteps = 0 ∧
    (s.num_timesteps = 0 → List.countP isGradEv (generation cfg o g s).2.1 = 0) ∧
    (0 < s.num_timesteps →
      List.countP isNewOptEv (generation cfg o g s).2.1 = cfg.n_grad ∧
      List.countP isLoadTargetEv (generation cfg o g s).2.1 = cfg.n_grad) := by
  refine ⟨rfl, ?_, ?_⟩
  · intro h0
    rw [generation_countP isGradEv (fun _ => rfl) (fun _ => rfl)
      (fun _ _ => rfl) cfg o g s]
    unfold genGradTrace
    rw [if_neg (by omega)]
    rfl
  · intro hnt
    constructor
    · rw [generation_countP isNewOptEv (fun _ => rfl) (fun _ => rfl)
        (fun _ _ => rfl) cfg o g s]
      exact countP_newOpt_genGradTrace cfg o g s hnt
    · rw [generation_countP isLoadTargetEv (fun _ => rfl) (fun _ => rfl)
        (fun _ _ => rfl) cfg o g s]
      exact countP_loadTarget_genGradTrace cfg o g s hnt

theorem C3_witness :
    List.countP isGradEv (generation wCfg wOracleOk 0 (initState [0])).2.1 = 0 ∧
    List.countP isNewOptEv (generation wCfg wOracleOk 0 wStateMid).2.1 =
      wCfg.n_grad ∧
    List.countP isLoadTargetEv (generation wCfg wOracleOk 0 wStateMid).2.1 =
      wCfg.n_grad := by
  have h1 := (C3_first_generation_skips_gradient wCfg wOracleOk 0
    (initState [0]) [0]).2.1 (by decide)
  have h2 := (C3_first_generation_skips_gradient wCfg wOracleOk 0
    wStateMid [0]).2.2 (by decide)
  exact ⟨h1, h2.1, h2.2⟩

/-- C8: `_setup_model` constructs the CEM optimizer with antithetic
sampling enabled exactly when `pop_size` is even (`antithetic=not
self.pop_size % 2`); an odd `pop_size` silently yields `antithetic =
false` — `setup_model` is a total function performing arithmetic only, so
no error is ever raised. -/
theorem C8_antithetic_iff_even (cfg : Config) (v : Param) :
    ((setup_model cfg v).antithetic = true ↔ cfg.pop_size % 2 = 0) ∧
    (cfg.pop_size % 2 = 1 → (setup_model cfg v).antithetic = false) ∧
    (setup_model cfg v).parents = cfg.pop_size / 2 ∧
    (setup_model cfg v).elitism = cfg.elitism ∧
    (setup_model cfg v).num_params = v.length ∧
    (setup_model cfg v).mu_init = v := by
  refine ⟨?_, ?_, rfl, rfl, rfl, rfl⟩
  · simp [setup_model]
  · intro h
    simp [setup_model, h]

theorem C8_witness :
    (setup_model { wCfg with pop_size := 3 } [1, 2]).antithetic = false ∧
    (setup_model wCfg [1, 2]).antithetic = true := by
  refine ⟨(C8_antithetic_iff_even { wCfg with pop_size := 3 } [1, 2]).2.1
    (by decide), ?_⟩
  exact (C8_antithetic_iff_even wCfg [1, 2]).1.mpr (by decide)

/-- C9: when rollout `j` of a generation reports
`continue_training=false`, the generation is unwound without incorporating
that rollout's results: the fitness list, `actor_steps` and `episode_num`
only reflect rollouts `0 … j-1`, while the rollout call itself did happen
(`rolloutCount` advanced past it and its steps did reach `num_timesteps`,
which `collect_rollouts` updates before the break). -/
theorem C9_abort_excludes_aborted_rollout (cfg : Config) (o : Oracle) (g : Nat)
    (s : LearnState) (j : Nat)
    (hj : j < (o.ask g).length)
    (hpre : ∀ k, k < j → (o.rollout (s.rolloutCount + k)).continue_training = true)
    (habort : (o.rollout (s.rolloutCount + j)).continue_training = false) :
    (generation cfg o g s).1.fitnesses = rewardsFrom o s.rolloutCount j ∧
    (generation cfg o g s).1.actor_steps = stepsFrom o s.rolloutCount j ∧
    (generation cfg o g s).1.episode_num =
      s.episode_num + episodesFrom o s.rolloutCount j ∧
    (generation cfg o g s).1.num_timesteps =
      s.num_timesteps + stepsFrom o s.rolloutCount (j + 1) ∧
    (generation cfg o g s).1.rolloutCount = s.rolloutCount + (j + 1) := by
  obtain ⟨_, _, a3, a4, a5, a6, a7, _⟩ := generation_abort cfg o g s j hj hpre habort
  exact ⟨a3, a4, a5, a6, a7⟩

theorem C9_witness :
    (generation wCfg wOracleAbort 0 (initState [0])).1.fitnesses =
      rewardsFrom wOracleAbort 0 0 ∧
    (generation wCfg wOracleAbort 0 (initState [0])).1.actor_steps =
      stepsFrom wOracleAbort 0 0 ∧
    (generation wCfg wOracleAbort 0 (initState [0])).1.episode_num =
      (initState [0]).episode_num + episodesFrom wOracleAbort 0 0 ∧
    (generation wCfg wOracleAbort 0 (initState [0])).1.num_timesteps =
      (initState [0]).num_timesteps + stepsFrom wOracleAbort 0 1 ∧
    (generation wCfg wOracleAbort 0 (initState [0])).1.rolloutCount = 0 + 1 := by
  exact C9_abort_excludes_aborted_rollout wCfg wOracleAbort 0 (initState [0]) 0
    (by decide) (by intro k hk; omega) (by decide)

/-- C10: during the evaluation phase only the live actor is loaded with
each member's vector — the actor-target is never written (no
actor-target-load event appears, and the final actor-target equals the
incoming one); hence after a generation the actor-target retains what the
gradient phase left (the initial weights when the first generation skipped
the gradient phase). -/
theorem C10_eval_phase_preserves_actor_target (cfg : Config) (o : Oracle)
    (g : Nat) (s : LearnState) (ps : List Param) :
    (evalLoop o ps s).1.actor_target = s.actor_target ∧
    List.countP isLoadTargetEv (evalLoop o ps s).2.1 = 0 ∧
    (∃ k, k ≤ ps.length ∧ (evalLoop o ps s).2.1 = evalEvents (ps.take k)) ∧
    (s.num_timesteps = 0 → (generation cfg o g s).1.actor_target = s.actor_target) ∧
    (0 < s.num_timesteps → (generation cfg o g s).1.actor_target =
      (gradPhase cfg o (askState o g s)).1.actor_target) := by
  obtain ⟨h1, h2, k, hk, htr⟩ := evalLoop_frame o ps s
  refine ⟨h1, ?_, ⟨k, hk, htr⟩, ?_, ?_⟩
  · rw [htr]
    exact countP_evalEvents_zero isLoadTargetEv (fun p => ⟨rfl, rfl⟩) _
  · intro h0
    rw [generation_actor_target]
    unfold postGradState
    rw [if_neg (by omega)]
    rfl
  · intro hnt
    rw [generation_actor_target]
    unfold postGradState
    rw [if_pos hnt]

theorem C10_witness :
    (evalLoop wOracleOk [[1], [2]] (initState [9])).1.actor_target =
      (initState [9]).actor_target ∧
    List.countP isLoadTargetEv (evalLoop wOracleOk [[1], [2]] (initState [9])).2.1 = 0 ∧
    (generation wCfg wOracleOk 0 (initState [9])).1.actor_target =
      (initState [9]).actor_target ∧
    (generation wCfg wOracleOk 0 wStateMid).1.actor_target =
      (gradPhase wCfg wOracleOk (askState wOracleOk 0 wStateMid)).1.actor_target := by
  obtain ⟨h1, h2, _, h4, _⟩ := C10_eval_phase_preserves_actor_target wCfg wOracleOk 0
    (initState [9]) [[1], [2]]
  obtain ⟨_, _, _, _, h5⟩ := C10_eval_phase_preserves_actor_target wCfg wOracleOk 0
    wStateMid [[1], [2]]
  exact ⟨h1, h2, h4 (by decide), h5 (by decide)⟩

/-- C4: for a generation after the first — its entry state being the
result of a completed generation, with a positive timestep count — the
entry `actor_steps` is exactly the step count accumulated during the
previous generation's evaluation phase, and every gradient individual's
segment calls, under `original`, `train_critic(actor_steps // n_grad,
tau=tau)` then `train_actor(actor_steps, tau_actor=tau, tau_critic=0)`;
under `original_td3`, `train_critic(actor_steps // n_grad, tau=0)` then
`train_actor(actor_steps, tau_actor=tau, tau_critic=tau)`. -/
theorem C4_original_styles_schedule (cfg : Config) (o : Oracle) (g0 g : Nat)
    (sPrev : LearnState)
    (hflag : (generation cfg o g0 sPrev).2.2 = true)
    (hnt : 0 < (generation cfg o g0 sPrev).1.num_timesteps) :
    (generation cfg o g0 sPrev).1.actor_steps =
      stepsFrom o sPrev.rolloutCount (o.ask g0).length ∧
    (cfg.update_style = "original" → ∀ i, i < cfg.n_grad → ∃ pre post,
      (generation cfg o g (generation cfg o g0 sPrev).1).2.1 =
        pre ++ Event.loadActor ((o.ask g).getD i []) ::
          Event.loadActorTarget ((o.ask g).getD i []) ::
          Event.newOptimizer
            (o.lr_schedule (generation cfg o g0 sPrev).1.current_progress) ::
          Event.trainCritic
            ((generation cfg o g0 sPrev).1.actor_steps / cfg.n_grad) cfg.tau ::
          Event.trainActor (generation cfg o g0 sPrev).1.actor_steps cfg.tau 0 ::
          post) ∧
    (cfg.update_style = "original_td3" → ∀ i, i < cfg.n_grad → ∃ pre post,
      (generation cfg o g (generation cfg o g0 sPrev).1).2.1 =
        pre ++ Event.loadActor ((o.ask g).getD i []) ::
          Event.loadActorTarget ((o.ask g).getD i []) ::
          Event.newOptimizer
            (o.lr_schedule (generation cfg o g0 sPrev).1.current_progress) ::
          Event.trainCritic
            ((generation cfg o g0 sPrev).1.actor_steps / cfg.n_grad) 0 ::
          Event.trainActor (generation cfg o g0 sPrev).1.actor_steps cfg.tau
            cfg.tau :: post) := by
  have hall := generation_true_rollouts cfg o g0 sPrev hflag
  obtain ⟨_, _, _, _, c5, _, _, _⟩ := generation_complete cfg o g0 sPrev hall
  refine ⟨c5, ?_, ?_⟩
  · intro hstyle i hi
    obtain ⟨pre, post, hdec⟩ :=
      generation_gradBlock cfg o g (generation cfg o g0 sPrev).1 hnt i hi
    refine ⟨pre, post, ?_⟩
    rw [hdec]
    have hsty : (cfg.update_style == "original") = true := by
      rw [hstyle]; decide
    unfold gradBlock styleTrain
    rw [if_pos hsty]
    simp
  · intro hstyle i hi
    obtain ⟨pre, post, hdec⟩ :=
      generation_gradBlock cfg o g (generation cfg o g0 sPrev).1 hnt i hi
    refine ⟨pre, post, ?_⟩
    rw [hdec]
    have hsty1 : ¬((cfg.update_style == "original") = true) := by
      rw [hstyle]; decide
    have hsty2 : (cfg.update_style == "original_td3") = true := by
      rw [hstyle]; decide
    unfold gradBlock styleTrain
    rw [if_neg hsty1, if_pos hsty2]
    simp

theorem C4_witness :
    (generation wCfg wOracleOk 0 (initState [0])).1.actor_steps =
      stepsFrom wOracleOk (initState [0]).rolloutCount
        (wOracleOk.ask 0).length ∧
    ∃ pre post,
      (generation wCfg wOracleOk 1 (generation wCfg wOracleOk 0 (initState [0])).1).2.1 =
        pre ++ Event.loadActor ((wOracleOk.ask 1).getD 0 []) ::
          Event.loadActorTarget ((wOracleOk.ask 1).getD 0 []) ::
          Event.newOptimizer (wOracleOk.lr_schedule
            (generation wCfg wOracleOk 0 (initState [0])).1.current_progress) ::
          Event.trainCritic
            ((generation wCfg wOracleOk 0 (initState [0])).1.actor_steps /
              wCfg.n_grad) wCfg.tau ::
          Event.trainActor
            (generation wCfg wOracleOk 0 (initState [0])).1.actor_steps
            wCfg.tau 0 :: post := by
  obtain ⟨h1, h2, _⟩ := C4_original_styles_schedule wCfg wOracleOk 0 1
    (initState [0]) (by decide) (by decide)
  exact ⟨h1, h2 rfl 0 (by decide)⟩

/-- C5: for a generation with `num_timesteps > 0`, under `td3_like` each
gradient individual's segment runs the per-batch loop for `actor_steps`
iterations, and under any other non-original style for
`2 * (actor_steps // n_grad)` iterations; in the per-batch loop, iteration
`j` samples the fresh batch `sc + j` and trains the critic on it, and
trains the actor (with `tau_actor = tau_critic = tau`) on that same batch
exactly when the iteration index is a multiple of `policy_delay`. -/
theorem C5_batch_styles_schedule (cfg : Config) (o : Oracle) (g : Nat)
    (s : LearnState) (hnt : 0 < s.num_timesteps) :
    (cfg.update_style = "td3_like" → ∀ i, i < cfg.n_grad → ∃ pre post,
      (generation cfg o g s).2.1 =
        pre ++ Event.loadActor ((o.ask g).getD i []) ::
          Event.loadActorTarget ((o.ask g).getD i []) ::
          Event.newOptimizer (o.lr_schedule s.current_progress) ::
          (innerLoop cfg.policy_delay cfg.tau s.actor_steps 0
            (s.sampleCount + i * sampleAdv cfg s.actor_steps) ++ post)) ∧
    (cfg.update_style ≠ "original" → cfg.update_style ≠ "original_td3" →
      cfg.update_style ≠ "td3_like" → ∀ i, i < cfg.n_grad → ∃ pre post,
      (generation cfg o g s).2.1 =
        pre ++ Event.loadActor ((o.ask g).getD i []) ::
          Event.loadActorTarget ((o.ask g).getD i []) ::
          Event.newOptimizer (o.lr_schedule s.current_progress) ::
          (innerLoop cfg.policy_delay cfg.tau (2 * (s.actor_steps / cfg.n_grad)) 0
            (s.sampleCount + i * sampleAdv cfg s.actor_steps) ++ post)) ∧
    (∀ n it sc j, Event.sampleBatch (sc + j) ∈
      innerLoop cfg.policy_delay cfg.tau n it sc ↔ j < n) ∧
    (∀ n it sc j, Event.trainCriticBatch (sc + j) ∈
      innerLoop cfg.policy_delay cfg.tau n it sc ↔ j < n) ∧
    (∀ n it sc j a b, Event.trainActorBatch (sc + j) a b ∈
      innerLoop cfg.policy_delay cfg.tau n it sc ↔
        (j < n ∧ (it + j) % cfg.policy_delay = 0 ∧ a = cfg.tau ∧ b = cfg.tau)) := by
  refine ⟨?_, ?_,
    fun n it sc j => innerLoop_mem_sample_iff cfg.policy_delay cfg.tau n it sc j,
    fun n it sc j => innerLoop_mem_critic_iff cfg.policy_delay cfg.tau n it sc j,
    fun n it sc j a b =>
      innerLoop_mem_actor_iff cfg.policy_delay cfg.tau n it sc j a b⟩
  · intro hstyle i hi
    obtain ⟨pre, post, hdec⟩ := generation_gradBlock cfg o g s hnt i hi
    refine ⟨pre, post, ?_⟩
    rw [hdec]
    have hsty1 : ¬((cfg.update_style == "original") = true) := by
      rw [hstyle]; decide
    have hsty2 : ¬((cfg.update_style == "original_td3") = true) := by
      rw [hstyle]; decide
    have hsty3 : (cfg.update_style == "td3_like") = true := by
      rw [hstyle]; decide
    unfold gradBlock styleTrain innerSteps
    rw [if_neg hsty1, if_neg hsty2, if_pos hsty3]
    simp
  · intro hne1 hne2 hne3 i hi
    obtain ⟨pre, post, hdec⟩ := generation_gradBlock cfg o g s hnt i hi
    refine ⟨pre, post, ?_⟩
    rw [hdec]
    have hsty1 : ¬((cfg.update_style == "original") = true) := by
      simp only [beq_iff_eq]; exact hne1
    have hsty2 : ¬((cfg.update_style == "original_td3") = true) := by
      simp only [beq_iff_eq]; exact hne2
    have hsty3 : ¬((cfg.update_style == "td3_like") = true) := by
      simp only [beq_iff_eq]; exact hne3
    unfold gradBlock styleTrain innerSteps
    rw [if_neg hsty1, if_neg hsty2, if_neg hsty3]
    simp

theorem C5_witness :
    (∃ pre post,
      (generation wCfgTd3 wOracleOk 0 wStateMid).2.1 =
        pre ++ Event.loadActor ((wOracleOk.ask 0).getD 0 []) ::
          Event.loadActorTarget ((wOracleOk.ask 0).getD 0 []) ::
          Event.newOptimizer (wOracleOk.lr_schedule wStateMid.current_progress) ::
          (innerLoop wCfgTd3.policy_delay wCfgTd3.tau wStateMid.actor_steps 0
            (wStateMid.sampleCount +
              0 * sampleAdv wCfgTd3 wStateMid.actor_steps) ++ post)) ∧
    (Event.sampleBatch (0 + 1) ∈
      innerLoop wCfgTd3.policy_delay wCfgTd3.tau 2 0 0 ↔ 1 < 2) ∧
    (Event.trainCriticBatch (0 + 1) ∈
      innerLoop wCfgTd3.policy_delay wCfgTd3.tau 2 0 0 ↔ 1 < 2) ∧
    (Event.trainActorBatch (0 + 1) wCfgTd3.tau wCfgTd3.tau ∈
      innerLoop wCfgTd3.policy_delay wCfgTd3.tau 2 0 0 ↔
        (1 < 2 ∧ (0 + 1) % wCfgTd3.policy_delay = 0 ∧
          wCfgTd3.tau = wCfgTd3.tau ∧ wCfgTd3.tau = wCfgTd3.tau)) := by
  obtain ⟨h1, _, h3, h4, h5⟩ := C5_batch_styles_schedule wCfgTd3 wOracleOk 0
    wStateMid (by decide)
  exact ⟨h1 rfl 0 (by decide), h3 2 0 0 1, h4 2 0 0 1,
    h5 2 0 0 1 wCfgTd3.tau wCfgTd3.tau⟩

/-- C6: with `pop_size=10`, `n_grad=5`, `elitism=True`, a full
uninterrupted generation after the first performs gradient blocks for
exactly 5 individuals (5 fresh optimizers, 5 actor-target loads), calls
the rollout collector exactly 10 times — once per member, in population
order — and then calls `tell` exactly once, with the 10 member vectors
aligned with their 10 rollout rewards. -/
theorem C6_full_generation_scenario (cfg : Config) (o : Oracle) (g : Nat)
    (s : LearnState)
    (hpop : cfg.pop_size = 10) (hgrad : cfg.n_grad = 5)
    (helit : cfg.elitism = true)
    (hlen : (o.ask g).length = 10) (hnt : 0 < s.num_timesteps)
    (hroll : ∀ k, k < 10 →
      (o.rollout (s.rolloutCount + k)).continue_training = true) :
    (generation cfg o g s).2.2 = true ∧
    List.countP isNewOptEv (generation cfg o g s).2.1 = 5 ∧
    List.countP isLoadTargetEv (generation cfg o g s).2.1 = 5 ∧
    List.countP isRolloutEv (generation cfg o g s).2.1 = 10 ∧
    List.countP isTellEv (generation cfg o g s).2.1 = 1 ∧
    (generation cfg o g s).2.1 =
      genGradTrace cfg o g s ++ evalEvents (genParams cfg o g s) ++
        [Event.tellCall (genParams cfg o g s)
          (rewardsFrom o s.rolloutCount 10)] ∧
    (genParams cfg o g s).length = 10 ∧
    (rewardsFrom o s.rolloutCount 10).length = 10 ∧
    List.filter isRolloutEv (generation cfg o g s).2.1 =
      (genParams cfg o g s).map Event.rolloutCall := by
  have hall : ∀ k, k < (o.ask g).length →
      (o.rollout (s.rolloutCount + k)).continue_training = true := by
    rw [hlen]; exact hroll
  obtain ⟨c1, c2, c3, c4, c5, c6, c7, c8⟩ := generation_complete cfg o g s hall
  rw [hlen] at c2
  have hpl : (genParams cfg o g s).length = 10 := by
    rw [genParams_length, hlen]
  refine ⟨c1, ?_, ?_, ?_, ?_, c2, hpl, rewardsFrom_length o 10 s.rolloutCount, ?_⟩
  · rw [generation_countP isNewOptEv (fun _ => rfl) (fun _ => rfl)
      (fun _ _ => rfl) cfg o g s, countP_newOpt_genGradTrace cfg o g s hnt, hgrad]
  · rw [generation_countP isLoadTargetEv (fun _ => rfl) (fun _ => rfl)
      (fun _ _ => rfl) cfg o g s, countP_loadTarget_genGradTrace cfg o g s hnt,
      hgrad]
  · rw [c2]
    simp [List.countP_append, List.countP_cons, countP_rollout_genGradTrace,
      countP_rollout_evalEvents, hpl, isRolloutEv]
  · rw [c2]
    simp [List.countP_append, List.countP_cons, countP_tell_genGradTrace,
      countP_evalEvents_zero isTellEv (fun p => ⟨rfl, rfl⟩), isTellEv]
  · rw [c2, List.filter_append, List.filter_append,
      filter_rollout_genGradTrace, filter_rollout_evalEvents]
    simp [isRolloutEv]

theorem C6_witness :
    (generation wCfgC6 wOracleC6 0 wStateMid).2.2 = true ∧
    List.countP isNewOptEv (generation wCfgC6 wOracleC6 0 wStateMid).2.1 = 5 ∧
    List.countP isLoadTargetEv (generation wCfgC6 wOracleC6 0 wStateMid).2.1 = 5 ∧
    List.countP isRolloutEv (generation wCfgC6 wOracleC6 0 wStateMid).2.1 = 10 ∧
    List.countP isTellEv (generation wCfgC6 wOracleC6 0 wStateMid).2.1 = 1 ∧
    (genParams wCfgC6 wOracleC6 0 wStateMid).length = 10 := by
  obtain ⟨h1, h2, h3, h4, h5, _, h7, _, _⟩ := C6_full_generation_scenario wCfgC6
    wOracleC6 0 wStateMid (by decide) (by decide) (by decide) (by decide)
    (by decide) (fun k _ => rfl)
  exact ⟨h1, h2, h3, h4, h5, h7⟩

/-- C7: for every gradient individual `i`, its segment begins by loading
`es_params[i]` into both the actor and the actor-target and creating a
fresh Adam optimizer at `lr_schedule(_current_progress)` (one optimizer
creation per individual, inside its own segment), and after its training
the trained actor vector is written back into population slot `i`. -/
theorem C7_load_fresh_optimizer_writeback (cfg : Config) (o : Oracle) (g : Nat)
    (s : LearnState) (i : Nat)
    (hnt : 0 < s.num_timesteps) (hi : i < cfg.n_grad)
    (hlen : cfg.n_grad ≤ (o.ask g).length) :
    (∃ pre post, (generation cfg o g s).2.1 =
      pre ++ Event.loadActor ((o.ask g).getD i []) ::
        Event.loadActorTarget ((o.ask g).getD i []) ::
        Event.newOptimizer (o.lr_schedule s.current_progress) ::
        (styleTrain cfg s.actor_steps
          (s.sampleCount + i * sampleAdv cfg s.actor_steps) ++ post)) ∧
    (generation cfg o g s).1.es_params.getD i [] =
      (o.train (s.gradCount + i) ((o.ask g).getD i [])).1 := by
  constructor
  · obtain ⟨pre, post, hdec⟩ := generation_gradBlock cfg o g s hnt i hi
    refine ⟨pre, post, ?_⟩
    rw [hdec]
    unfold gradBlock
    simp
  · rw [generation_es_params]
    unfold genParams
    rw [if_pos hnt]
    have := trainedParams_getD o cfg.n_grad i 0 s.gradCount (o.ask g) hi
      (by omega)
    simpa using this

theorem C7_witness :
    (∃ pre post, (generation wCfg wOracleOk 0 wStateMid).2.1 =
      pre ++ Event.loadActor ((wOracleOk.ask 0).getD 0 []) ::
        Event.loadActorTarget ((wOracleOk.ask 0).getD 0 []) ::
        Event.newOptimizer (wOracleOk.lr_schedule wStateMid.current_progress) ::
        (styleTrain wCfg wStateMid.actor_steps
          (wStateMid.sampleCount + 0 * sampleAdv wCfg wStateMid.actor_steps) ++
          post)) ∧
    (generation wCfg wOracleOk 0 wStateMid).1.es_params.getD 0 [] =
      (wOracleOk.train (wStateMid.gradCount + 0)
        ((wOracleOk.ask 0).getD 0 [])).1 := by
  exact C7_load_fresh_optimizer_writeback wCfg wOracleOk 0 wStateMid 0
    (by decide) (by decide) (by decide)

end CEMRL
